import Mathlib

/-!
# Verification of the LibreELEC release-scripts repository

A shallow embedding of `releases.py` (manifest builder) and
`prune-archive.py` (archive pruner), with theorems settling the frozen
claims about the natural-language specification.

Modelling conventions:
* Python strings are Lean `String` / `List Char`; all filenames handled by
  the scripts are ASCII, and the Lean string primitives used
  (`startsWith`, `endsWith`, `drop`, …) agree with Python's on them.
* Python `re.search` on the script's anchored patterns is deterministic
  (every greedy repetition in those patterns is followed by a character
  that cannot belong to the repeated class, so backtracking never changes
  the outcome); each pattern is therefore embedded as the equivalent
  deterministic scanner, documented at its definition.
* CPython floats: `get_train_major_minor` computes
  `float(group0) + adjust` and formats with `f'{x:.1f}'`.  Every
  reachable value is an exact multiple of 0.1 (the table's adjustments
  complete each matched minor to a whole tenth) and the float rounding
  error (≤ 2⁻⁴⁵ here) is far below the 0.05 format-rounding slack, so the
  arithmetic is embedded exactly over ℕ in hundredths.
* Machine epoch times are `Int` numbers of seconds.
-/

namespace LE

/-- Python `s.startswith(p)` (via the character lists, on which the
kernel computes). -/
def pyStartsWith (s p : String) : Bool := p.toList.isPrefixOf s.toList

/-- Python `s.endswith(p)`. -/
def pyEndsWith (s p : String) : Bool := p.toList.isSuffixOf s.toList

/-- Python `str.removesuffix`. -/
def pyRemovesuffix (s suffix : String) : String :=
  if suffix ≠ "" ∧ pyEndsWith s suffix then
    String.mk (s.toList.take (s.toList.length - suffix.toList.length))
  else s

/-- Python `str.removeprefix`. -/
def pyRemoveStart (s pre : String) : String :=
  if pre ≠ "" ∧ pyStartsWith s pre then String.mk (s.toList.drop pre.toList.length) else s

instance {ε α : Type} [DecidableEq ε] [DecidableEq α] : DecidableEq (Except ε α) := fun x y =>
  match x, y with
  | .ok a, .ok b =>
    if h : a = b then isTrue (by rw [h]) else isFalse (fun he => h (Except.ok.inj he))
  | .error a, .error b =>
    if h : a = b then isTrue (by rw [h]) else isFalse (fun he => h (Except.error.inj he))
  | .ok _, .error _ => isFalse (fun he => Except.noConfusion he)
  | .error _, .ok _ => isFalse (fun he => Except.noConfusion he)

/-- Python `sub in s` substring containment, on char lists. -/
def listContains (pat : List Char) : List Char → Bool
  | [] => pat.isPrefixOf []
  | c :: cs => pat.isPrefixOf (c :: cs) || listContains pat cs

/-- Python `sub in s` substring containment. -/
def pyContains (s sub : String) : Bool :=
  listContains sub.toList s.toList

/-- Decimal digit character of `n % 10`. -/
def digitChar (n : Nat) : Char := Char.ofNat (48 + n % 10)

/-- Numeric value of a decimal digit character. -/
def digitVal (c : Char) : Nat := c.toNat - 48

/-- Fuel-driven decimal rendering of a natural number (the fuel is an upper
bound on the digit count; `n+1` always suffices). -/
def natDigitsAux : Nat → Nat → List Char
  | 0, _ => []
  | fuel + 1, n => if n < 10 then [digitChar n] else natDigitsAux fuel (n / 10) ++ [digitChar (n % 10)]

/-- Decimal digit string of a natural number (agrees with Python's `str`). -/
def natStr (n : Nat) : String := String.mk (natDigitsAux (n + 1) n)

/-- Value of a decimal digit string. -/
def parseNat (cs : List Char) : Nat := cs.foldl (fun a c => a * 10 + digitVal c) 0

/-! ## The version-stage table of `releases.py` (`VERSIONS`)

Each stage carries its label, its adjustment to the minor version number
(in hundredths, mirroring `0.20`, `0.10`, `0.05`, `0.03`, `0.10`, `0.00`),
and its minor-digit pattern.  The compiled regex of a stage is
`([0-9]+\.P)` where `P` is either a two-character literal (`80`, `90`,
`95`, `97`) or a character class (`[1,3,5,7]`, `[0,2,4,6]`; the comma is a
member of the class, faithfully kept although no version string contains
one). -/

inductive MinorPat where
  | two (a b : Char)
  | cls (s : List Char)
deriving DecidableEq, Repr

/-- `VERSIONS`: label, adjustment in hundredths, minor pattern, in the
declared order. -/
def VERSIONS : List (String × Nat × MinorPat) :=
  [("pre-alpha", 20, .two '8' '0'),
   ("alpha",     10, .two '9' '0'),
   ("beta",       5, .two '9' '5'),
   ("rc",         3, .two '9' '7'),
   ("unstable",  10, .cls ['1', ',', '3', '5', '7']),
   ("stable",     0, .cls ['0', ',', '2', '4', '6'])]

/-- Match of a minor pattern at the head of the remaining input; returns
the matched characters. -/
def minorMatch : MinorPat → List Char → Option (List Char)
  | .two a b, x :: y :: _ => if x = a ∧ y = b then some [a, b] else none
  | .two _ _, _ => none
  | .cls s, x :: _ => if x ∈ s then some [x] else none
  | .cls _, [] => none

/-- One attempt of the stage regex `([0-9]+\.P)` at the current position:
a maximal nonempty digit run, a literal `.`, then the minor pattern.
`[0-9]+` is followed by `\.` which is not a digit, so the greedy run is
forced maximal and the attempt is deterministic. -/
def tryStage (p : MinorPat) (cs : List Char) : Option (List Char × List Char) :=
  let run := cs.takeWhile Char.isDigit
  let rest := cs.dropWhile Char.isDigit
  if run.isEmpty then none
  else
    match rest with
    | '.' :: rest2 => (minorMatch p rest2).map (fun m => (run, m))
    | _ => none

/-- `re.search` of the stage regex: leftmost successful attempt.  Returns
(major digit run, matched minor characters), which concatenate (with the
dot) to `match.group(0)`. -/
def stageSearch (p : MinorPat) : List Char → Option (List Char × List Char)
  | [] => none
  | c :: cs =>
    match tryStage p (c :: cs) with
    | some r => some r
    | none => stageSearch p cs

/-- Value in hundredths of the matched `group(0)` (`float(match.group(0))`
scaled by 100): a two-character minor contributes its two decimal places,
a one-character minor its single tenth. -/
def group0Hundredths (run m : List Char) : Nat :=
  match m with
  | [d1, d2] => parseNat run * 100 + digitVal d1 * 10 + digitVal d2
  | [d] => parseNat run * 100 + digitVal d * 10
  | _ => parseNat run * 100

/-- `f'{x:.1f}'` for the reachable values: every branch of
`get_train_major_minor` produces an exact multiple of ten hundredths, so
the format is the integer part and one exact tenths digit. -/
def formatTenths (h : Nat) : String :=
  natStr (h / 100) ++ "." ++ String.mk [digitChar (h / 10 % 10)]

/-- The `for version in VERSIONS` loop body of `get_train_major_minor`. -/
def goStages (item : List Char) : List (String × Nat × MinorPat) → Option String
  | [] => none
  | (_, adjust, pat) :: rest =>
    match stageSearch pat item with
    | some (run, m) => some (formatTenths (group0Hundredths run m + adjust))
    | none => goStages item rest

/-- `ReleaseFile.get_train_major_minor` (releases.py:195-202): iterate the
stage table in order, search the stage regex in the item, and on the first
match return the matched version plus the stage adjustment formatted to
one decimal place; `None` when no stage matches. -/
def get_train_major_minor (item : String) : Option String :=
  goStages item.toList VERSIONS

/-- releases.py:299: `f'{fname_distro}-{self.get_train_major_minor(fname_train)}'`;
Python interpolates `None` as the string `"None"`. -/
def distroTrainOf (distro rawTrain : String) : String :=
  distro ++ "-" ++ (match get_train_major_minor rawTrain with
                    | some t => t
                    | none => "None")

/-! ## Filename classifier (releases.py:110-143, prune-archive.py:40-47)

All four compiled patterns share the anchored shape
`^(\w+)-([0-9a-zA-Z_-]+[.]\w+)-(\d+[.]\d+)…(\S*)\.EXT`.
In each of them every greedy repetition is followed by a required
character that cannot belong to the repeated class (`\w+` by `-`,
`[0-9a-zA-Z_-]+` by `.`, `\d+` by `.` or `-`), so the regex engine's
backtracking can never produce a different split than the maximal-run
scanner below, and the hex run before `(\S*)` absorbs only
non-whitespace hex characters that `\S*` could equally absorb.  The
trailing `(\S*)\.EXT` matches with `\S*` greedy, i.e. the extension
literal is taken at its rightmost occurrence that is preceded only by
non-whitespace characters.  Character classes are ASCII (the filenames
the scripts handle are ASCII). -/

def isWordChar (c : Char) : Bool := c.isAlphanum || c = '_'

def isDeviceChar (c : Char) : Bool := c.isAlphanum || c = '_' || c = '-'

def isHexChar (c : Char) : Bool :=
  c.isDigit || ('a' ≤ c && c ≤ 'f') || ('A' ≤ c && c ≤ 'F')

/-- Greedy nonempty character-class run (`C+`). -/
def runTake (p : Char → Bool) (cs : List Char) : Option (List Char × List Char) :=
  let r := cs.takeWhile p
  if r.isEmpty then none else some (r, cs.dropWhile p)

/-- A required literal character. -/
def litChar (c : Char) : List Char → Option (List Char)
  | x :: xs => if x = c then some xs else none
  | [] => none

/-- A required literal string. -/
def litStr (s : List Char) (cs : List Char) : Option (List Char) :=
  if s.isPrefixOf cs then some (cs.drop s.length) else none

/-- The trailing `(\S*)\.EXT`: the group is the longest non-whitespace
prefix followed by an occurrence of the extension literal (nothing after
the literal is constrained, as the pattern is not end-anchored). -/
def tailGroup (ext : List Char) : List Char → Option (List Char)
  | [] => if ext.isPrefixOf ([] : List Char) then some [] else none
  | c :: rest =>
    match (if c.isWhitespace then none else (tailGroup ext rest).map (c :: ·)) with
    | some g => some g
    | none => if ext.isPrefixOf (c :: rest) then some [] else none

/-- Parsed artifact descriptor: the capture groups of the filename
patterns (`date`/`githash` are empty for release artifacts, which have no
such segments; `uboot4` is the raw `(\S*)` group). -/
structure Parsed where
  distro : String
  device : String
  train : String
  date : String
  githash : String
  uboot4 : String
deriving DecidableEq, Repr

/-- `re.search` of the nightly pattern (`nightly = true`) or release
pattern (`nightly = false`) with extension `ext` against filename `f`. -/
def parseFilename (nightly : Bool) (ext : String) (f : String) : Option Parsed := do
  let (distro, r1) ← runTake isWordChar f.toList
  let r2 ← litChar '-' r1
  let (cls1, r3) ← runTake isDeviceChar r2
  let r4 ← litChar '.' r3
  let (w2, r5) ← runTake isWordChar r4
  let r6 ← litChar '-' r5
  let (d1, r7) ← runTake Char.isDigit r6
  let r8 ← litChar '.' r7
  let (d2, r9) ← runTake Char.isDigit r8
  let device := String.mk (cls1 ++ '.' :: w2)
  let train := String.mk (d1 ++ '.' :: d2)
  if nightly then
    let r10 ← litStr "-nightly-".toList r9
    let (dte, r11) ← runTake Char.isDigit r10
    let r12 ← litChar '-' r11
    let (hx, r13) ← runTake isHexChar r12
    let g4 ← tailGroup ext.toList r13
    return ⟨String.mk distro, device, train, String.mk dte, String.mk hx, String.mk g4⟩
  else
    let r10 ← litChar '.' r9
    let (_, r11) ← runTake Char.isDigit r10
    let g4 ← tailGroup ext.toList r11
    return ⟨String.mk distro, device, train, "", "", String.mk g4⟩

/-! ## Directory scan of `ReleaseFile.UpdateFile` (releases.py:231-315)

The walk is a list of `(dirpath, filenames)` pairs; `mtime` is the
filesystem's modification-time oracle (epoch seconds);
`cutoff = now - DAYS_TO_KEEP_NIGHTLIES` in the same units.

The `try/except` blocks around `regex.search(f)` are dead code:
`re.search` returns `None` on a non-match and raises nothing, so an
unparseable filename reaches `parsed_fname.group(1)` (line 294) with
`parsed_fname = None` and raises an uncaught `AttributeError`, aborting
the whole scan.  This is modelled by the `crash` outcome / the `Except`
error of the batch. -/

def DAYS_TO_KEEP_NIGHTLIES : Nat := 10

structure Args where
  verbose : Bool
  all : Bool
deriving DecidableEq, Repr

structure FileRec where
  name : String
  train : String
  device : String
  uboot : String
  dirpath : String
deriving DecidableEq, Repr

structure ScanState where
  files : List FileRec
  names : List String
  releases : List String
  builds : List String
deriving DecidableEq, Repr

inductive FileStep where
  | skip
  | crash
  | keep (p : Parsed)
deriving DecidableEq, Repr

/-- Classification and retention decision for one filename
(releases.py:248-291): the selection ladder over prefix, extension,
`nightly` marker and the retention cutoff, ending in a parse whose
failure is the uncaught `AttributeError`. -/
def processName (args : Args) (cutoff mtime : Int) (f : String) : FileStep :=
  if pyStartsWith f "LibreELEC-" then
    if pyEndsWith f ".tar" && !(pyEndsWith f "-noobs.tar") then
      if pyContains f "nightly" then
        if !args.all && mtime < cutoff then .skip
        else match parseFilename true ".tar" f with
          | some p => .keep p
          | none => .crash
      else match parseFilename false ".tar" f with
        | some p => .keep p
        | none => .crash
    else if pyEndsWith f ".img.gz" then
      if pyContains f "nightly" then
        if !args.all && mtime < cutoff then .skip
        else match parseFilename true ".img.gz" f with
          | some p => .keep p
          | none => .crash
      else match parseFilename false ".img.gz" f with
        | some p => .keep p
        | none => .crash
    else .skip
  else .skip

/-- releases.py:293-311: accumulate a kept file into the scan state
(append-if-absent for `releases` and `builds`, append for the file
lists). -/
def keepFile (dirpath f : String) (p : Parsed) (st : ScanState) : ScanState :=
  let uboot := pyRemoveStart p.uboot4 "-"
  let distroTrain := distroTrainOf p.distro p.train
  let rec' : FileRec := ⟨f, distroTrain, p.device, uboot, dirpath⟩
  { files := st.files ++ [rec'],
    names := st.names ++ [f],
    releases := if distroTrain ∈ st.releases then st.releases else st.releases ++ [distroTrain],
    builds := if p.device ∈ st.builds then st.builds else st.builds ++ [p.device] }

/-- Scan the filenames of one directory; a crash aborts with the
exception. -/
def scanDir (args : Args) (cutoff : Int) (mtime : String → String → Int)
    (dirpath : String) : List String → ScanState → Except String ScanState
  | [], st => .ok st
  | f :: fs, st =>
    match processName args cutoff (mtime dirpath f) f with
    | .skip => scanDir args cutoff mtime dirpath fs st
    | .crash => .error "AttributeError: NoneType object has no attribute group"
    | .keep p => scanDir args cutoff mtime dirpath fs (keepFile dirpath f p st)

/-- The walk over the directory tree (releases.py:243-315), skipping any
dirpath containing an `archive` or `upload` segment. -/
def scanWalk (args : Args) (cutoff : Int) (mtime : String → String → Int) :
    List (String × List String) → ScanState → Except String ScanState
  | [], st => .ok st
  | (dp, fs) :: rest, st =>
    if pyContains dp "archive" || pyContains dp "upload" then
      scanWalk args cutoff mtime rest st
    else
      match scanDir args cutoff mtime dp fs st with
      | .ok st' => scanWalk args cutoff mtime rest st'
      | .error e => .error e

def emptyScan : ScanState := ⟨[], [], [], []⟩

/-! ## Artifact grouping of `ReleaseFile.UpdateFile` (releases.py:317-410)

The digest source (`get_details`, studied separately below) is passed in
as an oracle `Details : path → train → build → file → DigestRec`; the
grouping loops consult it exactly where the source calls
`self.get_details`. -/

structure DigestRec where
  sha256 : String
  size : String
  timestamp : String
deriving DecidableEq, Repr

abbrev Details := String → String → String → String → DigestRec

/-- One attached artifact object
(`{'name','sha256','size','timestamp','subpath'}`). -/
structure Art where
  name : String
  sha256 : String
  size : String
  timestamp : String
  subpath : String
deriving DecidableEq, Repr

/-- One release entry: optional `file` (tarball), `image` (plain image)
and `uboot` (bootloader-variant list) slots; an absent slot is an absent
dictionary key. -/
structure Entry where
  file : Option Art
  image : Option Art
  uboot : Option (List Art)
deriving DecidableEq, Repr

structure Ctx where
  train : String
  build : String
  indir : String
  d : Details

/-- Build the artifact object for a file record
(releases.py:353-357 etc.): digests from `get_details`, `subpath` is the
dirpath with the input-directory prefix removed. -/
def artOf (ctx : Ctx) (rf : FileRec) : Art :=
  let r := ctx.d rf.dirpath ctx.train ctx.build rf.name
  ⟨rf.name, r.sha256, r.size, r.timestamp, pyRemoveStart rf.dirpath (ctx.indir ++ "/")⟩

/-- Python `x in release_file`: membership of a string among the five
fields of the per-file list `[f, distro_train, fname_device, fname_uboot,
dirpath]`. -/
def memRec (s : String) (rf : FileRec) : Bool :=
  s == rf.name || s == rf.train || s == rf.device || s == rf.uboot || s == rf.dirpath

/-- `base_filename` (releases.py:350-351): strip `.tar`, then `.img.gz`. -/
def baseOf (name : String) : String :=
  pyRemovesuffix (pyRemovesuffix name ".tar") ".img.gz"

/-- `for x in list(list_of_files): if p x: attach; remove` — iterate a
snapshot, removing each match from the live file and filename lists and
collecting the matches in order. -/
def consumeMatches (p : FileRec → Bool) :
    List FileRec → List FileRec → List String → List FileRec × List String × List FileRec
  | [], files, names => (files, names, [])
  | g :: rest, files, names =>
    if p g then
      let r := consumeMatches p rest (files.erase g) (names.erase g.name)
      (r.1, r.2.1, g :: r.2.2)
    else consumeMatches p rest files names

/-- releases.py:377-384: for each filename of the snapshot that starts
with the stripped base, sweep the live file list for all records whose
name starts with it, appending them to the uboot list. -/
def ubootSweep (ctx : Ctx) (pre : String) :
    List String → List FileRec → List String → List Art →
    List FileRec × List String × List Art
  | [], files, names, ub => (files, names, ub)
  | item :: rest, files, names, ub =>
    if pyStartsWith item pre then
      let r := consumeMatches (fun g => pyStartsWith g.name pre) files files names
      ubootSweep ctx pre rest r.1 r.2.1 (ub ++ r.2.2.map (artOf ctx))
    else ubootSweep ctx pre rest files names ub

/-- The branch body for one matched file (releases.py:350-403): tarball,
bootloader-variant image, or plain image; returns the constructed entry
and the updated live lists.  (The final fallthrough — a matched record
that is neither — leaves the lists unchanged and yields the empty entry
`entries[entry_position] = {}`, exactly as the source would.) -/
def processMatched (ctx : Ctx) (rf : FileRec) (files : List FileRec) (names : List String) :
    Entry × List FileRec × List String :=
  let base := baseOf rf.name
  if pyEndsWith rf.name ".tar" then
    let files1 := files.erase rf
    let names1 := names.erase rf.name
    if (base ++ ".img.gz") ∈ names1 then
      let r := consumeMatches (fun g => g.name == base ++ ".img.gz") files1 files1 names1
      (⟨some (artOf ctx rf), (r.2.2.getLast?).map (artOf ctx), none⟩, r.1, r.2.1)
    else
      (⟨some (artOf ctx rf), none, none⟩, files1, names1)
  else if rf.uboot ≠ "" then
    let files1 := files.erase rf
    let names1 := names.erase rf.name
    let pre := pyRemovesuffix base ("-" ++ rf.uboot)
    let r := ubootSweep ctx pre names1 files1 names1 [artOf ctx rf]
    (⟨none, none, some r.2.2⟩, r.1, r.2.1)
  else if pyEndsWith rf.name ".img.gz" then
    let files1 := files.erase rf
    let names1 := names.erase rf.name
    if (base ++ ".tar") ∈ names1 then
      let r := consumeMatches (fun g => g.name == base ++ ".tar") files1 files1 names1
      (⟨(r.2.2.getLast?).map (artOf ctx), some (artOf ctx rf), none⟩, r.1, r.2.1)
    else
      (⟨none, some (artOf ctx rf), none⟩, files1, names1)
  else
    (⟨none, none, none⟩, files, names)

/-- releases.py:339-403: one `(train, build)` pass over a snapshot of the
file list, skipping records already consumed and those not matching the
pair, and accumulating the entries in creation order. -/
def passAux (ctx : Ctx) :
    List FileRec → List FileRec → List String → List Entry →
    List FileRec × List String × List Entry
  | [], files, names, es => (files, names, es)
  | rf :: rest, files, names, es =>
    if rf ∈ files then
      if memRec ctx.train rf && memRec ctx.build rf then
        let r := processMatched ctx rf files names
        passAux ctx rest r.2.1 r.2.2 (es ++ [r.1])
      else passAux ctx rest files names es
    else passAux ctx rest files names es

def groupPass (ctx : Ctx) (files : List FileRec) (names : List String) :
    List FileRec × List String × List Entry :=
  passAux ctx files files names []

/-- Stable insertion into a `le`-sorted list (after all `le`-smaller-or-
equal elements), the building block of a stable ascending sort matching
Python's `sorted`/`list.sort`. -/
def insertBy (le : α → α → Bool) (x : α) : List α → List α
  | [] => [x]
  | y :: ys => if le y x then y :: insertBy le x ys else x :: y :: ys

/-- Stable ascending insertion sort (agrees with Python's stable sort for
any total preorder `le`). -/
def sortBy (le : α → α → Bool) (l : List α) : List α :=
  l.foldl (fun s x => insertBy le x s) []

/-- Python's lexicographic string `<` by code point, on char lists. -/
def listLt : List Char → List Char → Bool
  | [], [] => false
  | [], _ :: _ => true
  | _ :: _, [] => false
  | a :: as', b :: bs =>
    if a.toNat < b.toNat then true
    else if b.toNat < a.toNat then false
    else listLt as' bs

def strLe (a b : String) : Bool := !(listLt b.toList a.toList)

def sortStrings : List String → List String := sortBy strLe

/-- The static device display-name table (releases.py:145-184). -/
def display_name : List (String × String) :=
  [("A64.arm", "Allwinner A64"),
   ("AMLGX.arm", "Amlogic GXBB/GXL/GXM/G12/SM1"),
   ("Dragonboard.arm", "Qualcomm Dragonboard"),
   ("FORMAT.any", "Tools"),
   ("Generic.x86_64", "Generic AMD/Intel/NVIDIA (x86_64)"),
   ("H3.arm", "Allwinner H3"),
   ("H5.arm", "Allwinner H5"),
   ("H6.arm", "Allwinner H6"),
   ("imx6.arm", "NXP i.MX6"),
   ("iMX6.arm", "NXP i.MX6"),
   ("iMX8.arm", "NXP i.MX8"),
   ("KVIM.arm", "Amlogic 3.14"),
   ("KVIM2.arm", "Amlogic 3.14"),
   ("Khadas_VIM.arm", "Amlogic 3.14"),
   ("Khadas_VIM2.arm", "Amlogic 3.14"),
   ("LePotato.arm", "Amlogic 3.14"),
   ("MiQi.arm", "Rockchip RK3288"),
   ("Odroid_C2.aarch64", "Amlogic 3.14"),
   ("Odroid_C2.arm", "Amlogic 3.14"),
   ("R40.arm", "Allwinner R40"),
   ("RK3288.arm", "Rockchip RK3288"),
   ("RK3328.arm", "Rockchip RK3328"),
   ("RK3399.arm", "Rockchip RK3399"),
   ("RPi.arm", "Raspberry Pi Zero and 1"),
   ("RPi2.arm", "Raspberry Pi 2 and 3"),
   ("RPi3.arm", "Raspberry Pi 3"),
   ("RPi4.arm", "Raspberry Pi 4 and 400"),
   ("S905.arm", "Amlogic 3.14"),
   ("S912.arm", "Amlogic 3.14"),
   ("Slice.arm", "Slice CM1/CM3"),
   ("Slice3.arm", "Slice CM1/CM3"),
   ("TinkerBoard.arm", "Rockchip RK3288"),
   ("Virtual.x86_64", "Virtual x86_64"),
   ("WeTek_Core.arm", "Amlogic 3.10"),
   ("WeTek_Hub.aarch64", "Amlogic 3.14"),
   ("WeTek_Hub.arm", "Amlogic 3.14"),
   ("WeTek_Play.arm", "Amlogic 3.10"),
   ("WeTek_Play_2.aarch64", "Amlogic 3.14"),
   ("WeTek_Play_2.arm", "Amlogic 3.14")]

/-- releases.py:407-410: display name with fallback to the raw build. -/
def displayNameOf (b : String) : String :=
  match display_name.lookup b with
  | some n => n
  | none => b

structure BuildObj where
  displayName : String
  releases : List Entry
deriving DecidableEq, Repr

structure TrainObj where
  url : String
  prettyname : String
  project : List (String × BuildObj)
deriving DecidableEq, Repr

/-- The inner `for build in builds` loop (releases.py:337-410) for one
train: run a pass per build and attach its entries to the project when
nonempty. -/
def loopBuilds (indir : String) (d : Details) (train : String) :
    List String → List FileRec → List String →
    List FileRec × List String × List (String × BuildObj)
  | [], files, names => (files, names, [])
  | b :: bs, files, names =>
    let r := groupPass ⟨train, b, indir, d⟩ files names
    let rest := loopBuilds indir d train bs r.1 r.2.1
    if r.2.2.isEmpty then rest
    else (rest.1, rest.2.1, (b, ⟨displayNameOf b, r.2.2⟩) :: rest.2.2)

/-- The outer `for train in trains` loop (releases.py:326-410): every
train receives its `url`/`prettyname_regex`/`project` object (even when
the project ends up empty). -/
def loopTrains (indir url prettyname : String) (d : Details) (builds : List String) :
    List String → List FileRec → List String →
    List FileRec × List String × List (String × TrainObj)
  | [], files, names => (files, names, [])
  | t :: ts, files, names =>
    let r := loopBuilds indir d t builds files names
    let rest := loopTrains indir url prettyname d builds ts r.1 r.2.1
    (rest.1, rest.2.1, (t, ⟨url, prettyname, r.2.2⟩) :: rest.2.2)

/-- The grouping stage of `UpdateFile` on a scan state: sorted trains and
builds, then the nested passes; returns the manifest as an ordered
train-keyed association list together with the residual (never-matched)
file list. -/
def buildManifest (indir url prettyname : String) (d : Details) (st : ScanState) :
    List FileRec × List String × List (String × TrainObj) :=
  loopTrains indir (url ++ "/") prettyname d (sortStrings st.builds)
    (sortStrings st.releases) st.files st.names

/-! ## Digest cache: `ReleaseFile.get_details` (releases.py:204-224)

The filesystem is an oracle; the returned effect list records which
filesystem operations the call performed (none on a cache hit). -/

inductive Eff where
  | sidecarRead (path : String)
  | hashed (path : String)
  | statted (path : String)
deriving DecidableEq, Repr

structure FsOracle where
  sidecar : String → Option String
  sha256 : String → String
  size : String → String
  mtimeIso : String → String

/-- `os.path.join` for the paths the scripts build. -/
def joinPath (a b : String) : String := a ++ "/" ++ b

/-- `ReleaseFile.get_details`: on a cache hit for key
`f'{train};{build};{file}'` return the cached triple; on a miss take the
digest from the `.sha256` sidecar when present (first space-delimited
token) or hash the file, and stat size and mtime. -/
def get_details (oldhash : List (String × DigestRec)) (fs : FsOracle)
    (path train build file : String) : DigestRec × List Eff :=
  let key := train ++ ";" ++ build ++ ";" ++ file
  match oldhash.lookup key with
  | none =>
    let fd : String × List Eff :=
      match fs.sidecar (joinPath path (file ++ ".sha256")) with
      | some contents =>
        ((contents.splitOn " ").headD "", [Eff.sidecarRead (joinPath path (file ++ ".sha256"))])
      | none => (fs.sha256 (joinPath path file), [Eff.hashed (joinPath path file)])
    (⟨fd.1, fs.size (joinPath path file), fs.mtimeIso (joinPath path file)⟩,
     fd.2 ++ [Eff.statted (joinPath path file)])
  | some r => (r, [])

/-! ## The Archive Pruner (`prune-archive.py`) -/

structure PArgs where
  delete : Bool
  keep : Nat
  retained : Bool
  verbose : Bool
deriving DecidableEq, Repr

/-- The per-file list
`[f, fname_device, fname_date, fname_uboot, dirpath]` of
prune-archive.py:96 (`fname_uboot` may be `None`). -/
structure PFileRec where
  name : String
  device : String
  date : String
  uboot : Option String
  dirpath : String
deriving DecidableEq, Repr

inductive PStep where
  | skip
  | crash
  | keep (p : Parsed)
deriving DecidableEq, Repr

/-- prune-archive.py:67-79: nightly `.img.gz` selection; a prefixed,
matching-extension filename that the pattern rejects reaches
`parsed_fname.group(1)` with `None` (the `except` never fires) and
crashes, as in the manifest builder. -/
def pruneProcessName (f : String) : PStep :=
  if pyStartsWith f "LibreELEC-" then
    if pyEndsWith f ".img.gz" && pyContains f "nightly" then
      match parseFilename true ".img.gz" f with
      | some p => .keep p
      | none => .crash
    else .skip
  else .skip

/-- prune-archive.py:81-96: record construction;
`fname_uboot = lchop(group(6), '-') if group(6) else None`. -/
def pruneKeep (dirpath f : String) (p : Parsed) (st : List PFileRec × List String) :
    List PFileRec × List String :=
  let uboot : Option String := if p.uboot4 ≠ "" then some (pyRemoveStart p.uboot4 "-") else none
  let rec' : PFileRec := ⟨f, p.device, p.date, uboot, dirpath⟩
  (st.1 ++ [rec'],
   if p.device ∈ st.2 then st.2 else st.2 ++ [p.device])

def pruneScanDir (dirpath : String) :
    List String → List PFileRec × List String → Except String (List PFileRec × List String)
  | [], st => .ok st
  | f :: fs, st =>
    match pruneProcessName f with
    | .skip => pruneScanDir dirpath fs st
    | .crash => .error "AttributeError: NoneType object has no attribute group"
    | .keep p => pruneScanDir dirpath fs (pruneKeep dirpath f p st)

def pruneScanWalk :
    List (String × List String) → List PFileRec × List String →
    Except String (List PFileRec × List String)
  | [], st => .ok st
  | (dp, fs) :: rest, st =>
    match pruneScanDir dp fs st with
    | .ok st' => pruneScanWalk rest st'
    | .error e => .error e

/-- Python `x in release_file` over the pruner's five-element list (the
fourth element may be `None`, which never equals a string). -/
def memRecP (s : String) (rf : PFileRec) : Bool :=
  s == rf.name || s == rf.device || s == rf.date ||
    (match rf.uboot with | some u => s == u | none => false) || s == rf.dirpath

/-! ### ISO calendar (`datetime.isocalendar`) and date arithmetic -/

def isLeap (y : Nat) : Bool := y % 4 == 0 && (y % 100 != 0 || y % 400 == 0)

/-- Cumulative days before month `m` in a non-leap year. -/
def cumDays (m : Nat) : Nat :=
  [0, 31, 59, 90, 120, 151, 181, 212, 243, 273, 304, 334].getD (m - 1) 0

def dayOfYear (y m d : Nat) : Nat :=
  cumDays m + d + (if 2 < m && isLeap y then 1 else 0)

/-- Julian day number of a Gregorian date (standard formula; the `Int`
divisions act on nonnegative values for the dates at hand, so truncation
equals flooring). -/
def jdn (y m d : Nat) : Int :=
  let a : Int := (14 - (m : Int)) / 12
  let y' : Int := (y : Int) + 4800 - a
  let m' : Int := (m : Int) + 12 * a - 3
  (d : Int) + (153 * m' + 2) / 5 + 365 * y' + y' / 4 - y' / 100 + y' / 400 - 32045

/-- ISO weekday, Monday = 1 … Sunday = 7. -/
def isoWeekday (y m d : Nat) : Nat := ((jdn y m d) % 7).toNat + 1

/-- Number of ISO weeks in year `y` (52 or 53). -/
def isoWeeksInYear (y : Nat) : Nat :=
  let p : Nat → Nat := fun n => (n + n / 4 - n / 100 + n / 400) % 7
  if p y == 4 || p (y - 1) == 3 then 53 else 52

/-- `datetime.isocalendar()[0,1]`: the ISO year and week of a date. -/
def isoYearWeek (y m d : Nat) : Nat × Nat :=
  let wd := isoWeekday y m d
  let w := (dayOfYear y m d + 10 - wd) / 7
  if w = 0 then (y - 1, isoWeeksInYear (y - 1))
  else if w = 53 && isoWeeksInYear y == 52 then (y + 1, 1)
  else (y, w)

/-- Fields of a `YYYYMMDD` date string
(`date[0:4]`, `date[4:6]`, `date[6:8]`). -/
def dateYMD (s : String) : Nat × Nat × Nat :=
  (parseNat (s.toList.take 4),
   parseNat ((s.toList.drop 4).take 2),
   parseNat ((s.toList.drop 6).take 2))

/-- Epoch seconds (midnight) of a `YYYYMMDD` date string, the value of
`datetime.fromisoformat(f'{d[0:4]}-{d[4:6]}-{d[6:8]}')` on the epoch
scale (prune-archive.py:126). -/
def dateSec (s : String) : Int :=
  let (y, m, d) := dateYMD s
  86400 * (jdn y m d - 2440588)

def isoYWofDate (s : String) : Nat × Nat :=
  let (y, m, d) := dateYMD s
  isoYearWeek y m d

/-- `file_details = [file_fullpath, file_date, file_size,
f'{file_year}-{file_week}']` (prune-archive.py:133). -/
structure PDetails where
  fullpath : String
  date : String
  size : Nat
  week : String
deriving DecidableEq, Repr

/-- prune-archive.py:120-142: the per-build bucket fold over the
date-sorted file list: a file past the purge cutoff is kept when its
`f'{file_device};{year}-{week}'` key is new for this build's pass and
purged otherwise; `file_device` is the uboot variant when present (and
truthy), else the build. -/
def purgeLoop (now : Int) (retention : Nat) (getsize : String → Nat) (build : String) :
    List PFileRec → List String → List PDetails → List PDetails →
    List String × List PDetails × List PDetails
  | [], weeks, kept, purge => (weeks, kept, purge)
  | rf :: rest, weeks, kept, purge =>
    if memRecP build rf then
      let fdev := match rf.uboot with
                  | some u => if u = "" then build else u
                  | none => build
      if dateSec rf.date < now - (retention : Int) * 86400 then
        let fullpath := rf.dirpath ++ "/" ++ rf.name
        let yw := isoYWofDate rf.date
        let det : PDetails :=
          ⟨fullpath, rf.date, getsize fullpath, natStr yw.1 ++ "-" ++ natStr yw.2⟩
        let key := fdev ++ ";" ++ natStr yw.1 ++ "-" ++ natStr yw.2
        if key ∈ weeks then purgeLoop now retention getsize build rest weeks kept (purge ++ [det])
        else purgeLoop now retention getsize build rest (weeks ++ [key]) (kept ++ [det]) purge
      else purgeLoop now retention getsize build rest weeks kept purge
    else purgeLoop now retention getsize build rest weeks kept purge

/-- The outer `for build in builds` loop of the selection phase: each
build gets a fresh `release_weeks`, while the kept/purge lists
accumulate. -/
def pruneBuilds (now : Int) (retention : Nat) (getsize : String → Nat)
    (sortedFiles : List PFileRec) :
    List String → List PDetails → List PDetails → List PDetails × List PDetails
  | [], kept, purge => (kept, purge)
  | b :: bs, kept, purge =>
    let r := purgeLoop now retention getsize b sortedFiles [] kept purge
    pruneBuilds now retention getsize sortedFiles bs r.2.1 r.2.2

/-- prune-archive.py:118-145: all builds, then the final date sorts of
the kept and purge lists. -/
def pruneSelect (now : Int) (retention : Nat) (getsize : String → Nat)
    (builds : List String) (sortedFiles : List PFileRec) : List PDetails × List PDetails :=
  let r := pruneBuilds now retention getsize sortedFiles builds [] []
  (sortBy (fun a b => strLe a.date b.date) r.1, sortBy (fun a b => strLe a.date b.date) r.2)

/-- The bucket key the pruner's selection actually uses
(prune-archive.py:124,135): the uboot variant when present and nonempty,
else the build, paired with the ISO `year-week` of the embedded date. -/
def bucketKey (build : String) (rf : PFileRec) : String :=
  (match rf.uboot with
   | some u => if u = "" then build else u
   | none => build) ++ ";" ++
    natStr (isoYWofDate rf.date).1 ++ "-" ++ natStr (isoYWofDate rf.date).2

/-- The reporting/deletion phase (prune-archive.py:148-184): when
`--retained` is set and the kept list is nonempty the program exits before
the purge loop; otherwise each purge path is printed and removed from
disk only when `--delete` is set (guarded by `os.path.isfile`).  Returns
the deleted paths and the resulting disk contents. -/
def pruneFinish (args : PArgs) (disk : List String)
    (kp : List PDetails × List PDetails) : List String × List String :=
  let deleted :=
    if !kp.1.isEmpty && args.retained then []
    else if args.delete then (kp.2.map (·.fullpath)).filter (· ∈ disk) else []
  (deleted, disk.filter (· ∉ deleted))

/-- `ManageArchive.PruneArchive` end to end: scan, date-sort, select,
then the reporting/deletion phase.  Returns
`(kept, purge, deleted, disk')` where `disk` is the set of present files
(`os.path.isfile`) and `disk'` the files remaining afterwards. -/
def pruneRun (args : PArgs) (now : Int) (getsize : String → Nat)
    (walk : List (String × List String)) (disk : List String) :
    Except String (List PDetails × List PDetails × List String × List String) :=
  match pruneScanWalk walk ([], []) with
  | .error e => .error e
  | .ok (files, builds) =>
    let sorted := sortBy (fun a b => strLe a.date b.date) files
    let r := pruneSelect now args.keep getsize (sortStrings builds) sorted
    let fin := pruneFinish args disk r
    .ok (r.1, r.2, fin.1, fin.2)

/-! ## JSON serialization (`ReleaseFile.WriteFile`, releases.py:451-453)

`json.dumps(self.update_json, indent=2, sort_keys=True)`: the manifest
tree with every object's keys emitted in sorted order.  `sortK` performs
the recursive key sort; `render` produces the `indent=2` text. -/

inductive Json where
  | str (s : String)
  | obj (kvs : List (String × Json))
  | arr (xs : List Json)
deriving Repr

mutual

def jsonBEq : Json → Json → Bool
  | .str a, .str b => a == b
  | .obj a, .obj b => jsonPairsBEq a b
  | .arr a, .arr b => jsonListBEq a b
  | _, _ => false

def jsonListBEq : List Json → List Json → Bool
  | [], [] => true
  | a :: as', b :: bs => jsonBEq a b && jsonListBEq as' bs
  | _, _ => false

def jsonPairsBEq : List (String × Json) → List (String × Json) → Bool
  | [], [] => true
  | (k, v) :: as', (k', v') :: bs => k == k' && jsonBEq v v' && jsonPairsBEq as' bs
  | _, _ => false

end

mutual

def sortK : Json → Json
  | .str s => .str s
  | .obj kvs => .obj (sortBy (fun a b => strLe a.1 b.1) (sortKP kvs))
  | .arr xs => .arr (sortKL xs)

def sortKL : List Json → List Json
  | [] => []
  | j :: js => sortK j :: sortKL js

def sortKP : List (String × Json) → List (String × Json)
  | [] => []
  | (k, v) :: kvs => (k, sortK v) :: sortKP kvs

end

def chainLe : List String → Bool
  | [] => true
  | [_] => true
  | a :: b :: r => strLe a b && chainLe (b :: r)

mutual

/-- Keys sorted at every nesting level of the tree. -/
def keysSortedB : Json → Bool
  | .str _ => true
  | .obj kvs => chainLe (kvs.map (·.1)) && keysSortedP kvs
  | .arr xs => keysSortedL xs

def keysSortedL : List Json → Bool
  | [] => true
  | j :: js => keysSortedB j && keysSortedL js

def keysSortedP : List (String × Json) → Bool
  | [] => true
  | (_, v) :: kvs => keysSortedB v && keysSortedP kvs

end

/-- JSON string literal rendering (the artifact fields contain no
characters needing escapes; kept elementary). -/
def renderStr (s : String) : String := "\"" ++ s ++ "\""

def indentStr (n : Nat) : String := String.mk (List.replicate n ' ')

mutual

def render (ind : Nat) : Json → String
  | .str s => renderStr s
  | .obj [] => "\x7b\x7d"
  | .obj (kv :: kvs) =>
    "\x7b\n" ++ renderPairs (ind + 2) kv kvs ++ "\n" ++ indentStr ind ++ "\x7d"
  | .arr [] => "[]"
  | .arr (x :: xs) =>
    "[\n" ++ renderItems (ind + 2) x xs ++ "\n" ++ indentStr ind ++ "]"
termination_by j => sizeOf j

def renderPairs (ind : Nat) : String × Json → List (String × Json) → String
  | (k, v), [] => indentStr ind ++ renderStr k ++ ": " ++ render ind v
  | (k, v), kv :: kvs =>
    indentStr ind ++ renderStr k ++ ": " ++ render ind v ++ ",\n" ++ renderPairs ind kv kvs
termination_by kv kvs => 1 + sizeOf kv + sizeOf kvs

def renderItems (ind : Nat) : Json → List Json → String
  | x, [] => indentStr ind ++ render ind x
  | x, y :: xs => indentStr ind ++ render ind x ++ ",\n" ++ renderItems ind y xs
termination_by x xs => 1 + sizeOf x + sizeOf xs

end

/-- `json.dumps(x, indent=2, sort_keys=True)`. -/
def dumps (j : Json) : String := render 0 (sortK j)

/-! ### The manifest as a JSON tree -/

def artJson (a : Art) : Json :=
  .obj [("name", .str a.name), ("sha256", .str a.sha256), ("size", .str a.size),
        ("timestamp", .str a.timestamp), ("subpath", .str a.subpath)]

def entryJson (e : Entry) : Json :=
  .obj ((match e.file with | some a => [("file", artJson a)] | none => []) ++
        (match e.image with | some a => [("image", artJson a)] | none => []) ++
        (match e.uboot with | some l => [("uboot", Json.arr (l.map artJson))] | none => []))

/-- `releases` is a dict keyed by the integer entry positions; JSON
serialization makes the keys decimal strings. -/
def releasesJson (es : List Entry) : Json :=
  .obj ((es.enum.map fun p => (natStr p.1, entryJson p.2)))

def buildObjJson (b : BuildObj) : Json :=
  .obj [("displayName", .str b.displayName), ("releases", releasesJson b.releases)]

def trainObjJson (t : TrainObj) : Json :=
  .obj [("url", .str t.url), ("prettyname_regex", .str t.prettyname),
        ("project", .obj (t.project.map fun p => (p.1, buildObjJson p.2)))]

def manifestJson (m : List (String × TrainObj)) : Json :=
  .obj (m.map fun p => (p.1, trainObjJson p.2))

/-! ### `ReleaseFile.ReadFile` (releases.py:413-448): seeding the digest
cache from the previous manifest tree. -/

def jGet (j : Json) (k : String) : Option Json :=
  match j with
  | .obj kvs => kvs.lookup k
  | _ => none

def jStr : Json → Option String
  | .str s => some s
  | _ => none

/-- The triple read out of one artifact object, when all fields are
present (a missing field is the `KeyError` that the source passes on). -/
def artFields (j : Json) : Option (String × DigestRec) := do
  let n ← jGet j "name" >>= jStr
  let h ← jGet j "sha256" >>= jStr
  let s ← jGet j "size" >>= jStr
  let t ← jGet j "timestamp" >>= jStr
  return (n, ⟨h, s, t⟩)

/-- Python dict assignment `self.oldhash[key] = v` (later writes shadow
earlier ones under `lookup`). -/
def dictSet (k : String) (v : DigestRec) (m : List (String × DigestRec)) :
    List (String × DigestRec) := (k, v) :: m

def extractSlot (train build : String) (rel : Json) (slot : String)
    (acc : List (String × DigestRec)) : List (String × DigestRec) :=
  match jGet rel slot >>= artFields with
  | some (n, r) => dictSet (train ++ ";" ++ build ++ ";" ++ n) r acc
  | none => acc

/-- The `uboot` list: each element in order; a malformed element raises
inside the loop and abandons the remainder (earlier elements stay). -/
def extractUboot (train build : String) :
    List Json → List (String × DigestRec) → List (String × DigestRec)
  | [], acc => acc
  | j :: js, acc =>
    match artFields j with
    | some (n, r) => extractUboot train build js (dictSet (train ++ ";" ++ build ++ ";" ++ n) r acc)
    | none => acc

def extractRelease (train build : String) (rel : Json)
    (acc : List (String × DigestRec)) : List (String × DigestRec) :=
  let a1 := extractSlot train build rel "file" acc
  let a2 := extractSlot train build rel "image" a1
  match jGet rel "uboot" with
  | some (.arr xs) => extractUboot train build xs a2
  | _ => a2

def extractReleases (train build : String) :
    List (String × Json) → List (String × DigestRec) → List (String × DigestRec)
  | [], acc => acc
  | (_, rel) :: rest, acc => extractReleases train build rest (extractRelease train build rel acc)

def extractBuilds (train : String) :
    List (String × Json) → List (String × DigestRec) → List (String × DigestRec)
  | [], acc => acc
  | (b, bj) :: rest, acc =>
    let acc' := match jGet bj "releases" with
                | some (.obj rels) => extractReleases train b rels acc
                | _ => acc
    extractBuilds train rest acc'

def extractTrains :
    List (String × Json) → List (String × DigestRec) → List (String × DigestRec)
  | [], acc => acc
  | (t, tj) :: rest, acc =>
    let acc' := match jGet tj "project" with
                | some (.obj bs) => extractBuilds t bs acc
                | _ => acc
    extractTrains rest acc'

/-- Seed the cache from a previous manifest tree. -/
def extract (j : Json) : List (String × DigestRec) :=
  match j with
  | .obj ts => extractTrains ts []
  | _ => []

/-! ## Observers used to state the grouping invariants -/

/-- All artifact objects attached to an entry (file slot, image slot,
uboot list). -/
def entryArts (e : Entry) : List Art :=
  e.file.toList ++ e.image.toList ++ (match e.uboot with | some l => l | none => [])

def entryNames (e : Entry) : List String := (entryArts e).map (·.name)

/-- The base filename an entry was created for.  The creating artifact is
the uboot head when the entry came from the bootloader branch, else the
`file`/`image` slot; every other slot of the entry carries the same base
by construction, so this is the entry's base filename. -/
def entryBase (e : Entry) : Option String :=
  match e.uboot with
  | some (a :: _) => some (baseOf a.name)
  | _ =>
    match e.file with
    | some a => some (baseOf a.name)
    | none => e.image.map (fun a => baseOf a.name)

def allEntries (m : List (String × TrainObj)) : List Entry :=
  (m.map (fun t => (t.2.project.map (fun b => b.2.releases)).flatten)).flatten

def allEntryNames (m : List (String × TrainObj)) : List String :=
  ((allEntries m).map entryNames).flatten

/-- Scanned artifact names have a recognized extension; a name ending in
`.img.gz.tar` would have `base_filename` stripped twice
(releases.py:350-351) and is excluded by this well-formedness predicate
(such names do pass the scan, which is what the counterexample to C5
would exploit beyond duplicate filenames). -/
def wfExt (n : String) : Bool :=
  (pyEndsWith n ".tar" || pyEndsWith n ".img.gz") && !(pyEndsWith n ".img.gz.tar")

/-- The `file_details` record the pruner builds for a file
(prune-archive.py:128-133). -/
def mkPDetails (gs : String → Nat) (rf : PFileRec) : PDetails :=
  let fullpath := rf.dirpath ++ "/" ++ rf.name
  let yw := isoYWofDate rf.date
  ⟨fullpath, rf.date, gs fullpath, natStr yw.1 ++ "-" ++ natStr yw.2⟩

/-! ## Concrete scenarios used by counterexamples and witnesses -/

/-- A constant digest oracle for concrete runs. -/
def trivDetails : Details := fun _ _ _ _ => ⟨"h", "1", "t"⟩

def noArgs : Args := ⟨false, false⟩

/-- One release tarball whose version `9.8` matches no stage rule. -/
def c2walk : List (String × List String) := [("in", ["LibreELEC-RPi2.arm-9.8.0.tar"])]

def c2manifest : List (String × TrainObj) :=
  match scanWalk noArgs 0 (fun _ _ => 50) c2walk emptyScan with
  | .ok st => (buildManifest "in" "http://u" "PN" trivDetails st).2.2
  | .error _ => []

/-- The same release tarball filename present in two subdirectories. -/
def c5walk : List (String × List String) :=
  [("in/a", ["LibreELEC-RPi2.arm-11.0.1.tar"]), ("in/b", ["LibreELEC-RPi2.arm-11.0.1.tar"])]

def c5manifest : List (String × TrainObj) :=
  match scanWalk noArgs 0 (fun _ _ => 50) c5walk emptyScan with
  | .ok st => (buildManifest "in" "http://u" "PN" trivDetails st).2.2
  | .error _ => []

/-- Two aged nightlies of one device in one ISO week, with different
uboot variant tags. -/
def c3walk : List (String × List String) :=
  [("a", ["LibreELEC-RK3328.arm-9.2-nightly-20200101-abcdef1-box.img.gz",
          "LibreELEC-RK3328.arm-9.2-nightly-20200103-abcdef1-rock64.img.gz"])]

def c3rec1 : PFileRec :=
  ⟨"LibreELEC-RK3328.arm-9.2-nightly-20200101-abcdef1-box.img.gz", "RK3328.arm",
   "20200101", some "box", "a"⟩

def c3rec2 : PFileRec :=
  ⟨"LibreELEC-RK3328.arm-9.2-nightly-20200103-abcdef1-rock64.img.gz", "RK3328.arm",
   "20200103", some "rock64", "a"⟩

/-! # Theorems -/

/-- C1: the claim is right about the intended behaviour and the code is
wrong: `re.search` never raises, so the `try/except/continue` around it
(releases.py:257-287) is dead, and a prefixed filename with a recognized
extension that the pattern rejects — such as `LibreELEC-foo.tar` — reaches
`parsed_fname.group(1)` as `None` and raises an uncaught
`AttributeError`; the whole batch is lost (here including the two
well-formed neighbours), instead of the file being skipped with a
diagnostic. -/
theorem C1_unparseable_filename_aborts_batch :
    parseFilename false ".tar" "LibreELEC-foo.tar" = none ∧
    processName noArgs 0 0 "LibreELEC-foo.tar" = .crash ∧
    scanWalk noArgs 0 (fun _ _ => 0)
        [("in", ["LibreELEC-RPi2.arm-11.0.1.tar", "LibreELEC-foo.tar",
                 "LibreELEC-RPi3.arm-11.0.1.tar"])] emptyScan =
      .error "AttributeError: NoneType object has no attribute group" := by
  refine ⟨by decide, by decide, by decide⟩

/-- C2 (counterexample): the raw version `9.8` matches no stage rule, yet
the artifact is not excluded from the manifest: it appears under the
train key `LibreELEC-None` produced by interpolating `None` on
releases.py:299. -/
theorem C2_counterexample_artifact_under_None_key :
    get_train_major_minor "9.8" = none ∧
    c2manifest.map (·.1) = ["LibreELEC-None"] ∧
    allEntryNames c2manifest = ["LibreELEC-RPi2.arm-9.8.0.tar"] := by
  refine ⟨by decide, by decide, by decide⟩

/-- C2 (amended): when no stage rule matches the raw version,
`get_train_major_minor` returns `None`, and the artifact is then NOT
excluded or reported: line 299 interpolates the `None` into the train
identifier, so the artifact is carried under the literal train key
`{distro}-None` — universally for the key construction, and end to end
for the `LibreELEC-RPi2.arm-9.8.0.tar` scenario, whose manifest carries
the artifact under the sole train key `LibreELEC-None` without the run
aborting. -/
theorem C2_no_stage_match_artifact_kept_under_None
    (distro raw : String) (h : get_train_major_minor raw = none) :
    distroTrainOf distro raw = distro ++ "-None" ∧
    c2manifest.map (·.1) ≠ [] ∧
    (c2manifest.map fun t => (t.1, allEntryNames [(t.1, t.2)])) =
      [("LibreELEC-None", ["LibreELEC-RPi2.arm-9.8.0.tar"])] := by
  refine ⟨?_, by decide, by decide⟩
  unfold distroTrainOf
  rw [h]
  show distro ++ "-" ++ "None" = distro ++ "-None"
  obtain ⟨dl⟩ := distro
  show String.mk (dl ++ ['-'] ++ ['N', 'o', 'n', 'e']) = String.mk (dl ++ ['-', 'N', 'o', 'n', 'e'])
  rw [List.append_assoc]
  rfl

/-- Witness for C2 at the raw version `9.8`. -/
theorem C2_witness :
    distroTrainOf "LibreELEC" "9.8" = "LibreELEC" ++ "-None" ∧
    c2manifest.map (·.1) ≠ [] ∧
    (c2manifest.map fun t => (t.1, allEntryNames [(t.1, t.2)])) =
      [("LibreELEC-None", ["LibreELEC-RPi2.arm-9.8.0.tar"])] :=
  C2_no_stage_match_artifact_kept_under_None "LibreELEC" "9.8" (by decide)

/-- C3 (counterexample): two aged nightlies of the same device
`RK3328.arm` in the same ISO week `2020-W01` but with different uboot
variant tags are BOTH kept (purge list empty), because
prune-archive.py:124 keys the retention bucket on the uboot variant when
one is present, not on the device. -/
theorem C3_counterexample_variant_buckets :
    ((pruneScanWalk c3walk ([], [])).map (fun s => s.1.map (·.device)) =
      .ok ["RK3328.arm", "RK3328.arm"]) ∧
    dateSec "20200101" < 1700000000 - 30 * 86400 ∧
    dateSec "20200103" < 1700000000 - 30 * 86400 ∧
    isoYWofDate "20200101" = (2020, 1) ∧
    isoYWofDate "20200103" = (2020, 1) ∧
    pruneRun ⟨false, 30, false, false⟩ 1700000000 (fun _ => 7) c3walk [] =
      .ok ([⟨"a/LibreELEC-RK3328.arm-9.2-nightly-20200101-abcdef1-box.img.gz",
             "20200101", 7, "2020-1"⟩,
            ⟨"a/LibreELEC-RK3328.arm-9.2-nightly-20200103-abcdef1-rock64.img.gz",
             "20200103", 7, "2020-1"⟩],
           [], [], []) := by
  refine ⟨by decide, by decide, by decide, by decide, by decide, by decide⟩

/-! ### Supporting lemmas on digit strings and the stage search -/

theorem digitChar_isDigit (n : Nat) : (digitChar n).isDigit = true := by
  have h : n % 10 < 10 := Nat.mod_lt _ (by norm_num)
  unfold digitChar
  generalize n % 10 = m at h
  interval_cases m <;> decide

theorem digitVal_digitChar (n : Nat) (h : n < 10) : digitVal (digitChar n) = n := by
  unfold digitChar digitVal
  rw [Nat.mod_eq_of_lt h]
  interval_cases n <;> decide

theorem natDigitsAux_all_digits (fuel n : Nat) :
    (natDigitsAux fuel n).all Char.isDigit = true := by
  induction fuel generalizing n with
  | zero => rfl
  | succ fuel ih =>
    unfold natDigitsAux
    by_cases h : n < 10
    · simp [h, digitChar_isDigit]
    · simp [h, List.all_append, ih (n / 10), digitChar_isDigit]

theorem natDigitsAux_ne_nil (fuel n : Nat) (h : 0 < fuel) : natDigitsAux fuel n ≠ [] := by
  cases fuel with
  | zero => exact absurd h (by simp)
  | succ fuel =>
    unfold natDigitsAux
    by_cases hn : n < 10 <;> simp [hn]

theorem parseNat_append_singleton (cs : List Char) (c : Char) :
    parseNat (cs ++ [c]) = parseNat cs * 10 + digitVal c := by
  unfold parseNat
  rw [List.foldl_append]
  rfl

theorem parseNat_natDigitsAux (fuel n : Nat) (h : n < 10 ^ fuel) :
    parseNat (natDigitsAux fuel n) = n := by
  induction fuel generalizing n with
  | zero => simp at h; simp [h]; rfl
  | succ fuel ih =>
    unfold natDigitsAux
    by_cases hn : n < 10
    · rw [if_pos hn]
      simp [parseNat, digitVal_digitChar n hn]
    · have hdiv : n / 10 < 10 ^ fuel := by
        have : n < 10 ^ fuel * 10 := by rw [← pow_succ]; exact h
        exact Nat.div_lt_of_lt_mul (by omega)
      rw [if_neg hn, parseNat_append_singleton, ih (n / 10) hdiv,
        digitVal_digitChar _ (Nat.mod_lt _ (by norm_num))]
      omega

theorem lt_ten_pow_succ (n : Nat) : n < 10 ^ (n + 1) := by
  calc n < 10 ^ n := Nat.lt_pow_self (by norm_num) n
    _ ≤ 10 ^ (n + 1) := Nat.pow_le_pow_right (by norm_num) (Nat.le_succ n)

theorem natStr_toList (n : Nat) : (natStr n).toList = natDigitsAux (n + 1) n := rfl

theorem parseNat_natStr (n : Nat) : parseNat (natStr n).toList = n := by
  rw [natStr_toList]
  exact parseNat_natDigitsAux _ _ (lt_ten_pow_succ n)

theorem natStr_all_digits (n : Nat) : (natStr n).toList.all Char.isDigit = true :=
  natDigitsAux_all_digits _ _

theorem natStr_ne_nil (n : Nat) : (natStr n).toList ≠ [] :=
  natDigitsAux_ne_nil _ _ (Nat.succ_pos n)

theorem toList_append (a b : String) : (a ++ b).toList = a.toList ++ b.toList := by
  obtain ⟨da⟩ := a
  obtain ⟨db⟩ := b
  rfl

theorem takeWhile_all_append (p : Char → Bool) (l : List Char) (c : Char) (r : List Char)
    (hl : l.all p = true) (hc : p c = false) : (l ++ c :: r).takeWhile p = l := by
  induction l with
  | nil => simp [List.takeWhile, hc]
  | cons a l ih =>
    simp only [List.all_cons, Bool.and_eq_true] at hl
    simp [List.takeWhile, hl.1, ih hl.2]

theorem dropWhile_all_append (p : Char → Bool) (l : List Char) (c : Char) (r : List Char)
    (hl : l.all p = true) (hc : p c = false) : (l ++ c :: r).dropWhile p = c :: r := by
  induction l with
  | nil => simp [List.dropWhile, hc]
  | cons a l ih =>
    simp only [List.all_cons, Bool.and_eq_true] at hl
    simp [List.dropWhile, hl.1, ih hl.2]

theorem dropWhile_all_nil (p : Char → Bool) (l : List Char) (hl : l.all p = true) :
    l.dropWhile p = [] := by
  induction l with
  | nil => rfl
  | cons a l ih =>
    simp only [List.all_cons, Bool.and_eq_true] at hl
    simp [List.dropWhile, hl.1, ih hl.2]

theorem minorMatch_two_hit (a b : Char) (ds : List Char) :
    minorMatch (.two a b) (a :: b :: ds) = some [a, b] := by
  simp [minorMatch]

theorem minorMatch_two_ne1 (a b d : Char) (ds : List Char) (h : d ≠ a) :
    minorMatch (.two a b) (d :: ds) = none := by
  cases ds <;> simp [minorMatch, h]

theorem minorMatch_two_ne2 (a b d e : Char) (ds : List Char) (h : e ≠ b) :
    minorMatch (.two a b) (d :: e :: ds) = none := by
  simp [minorMatch, h]

theorem minorMatch_cls_hit (S : List Char) (d : Char) (ds : List Char) (h : d ∈ S) :
    minorMatch (.cls S) (d :: ds) = some [d] := by
  simp [minorMatch, h]

theorem minorMatch_cls_miss (S : List Char) (d : Char) (ds : List Char) (h : d ∉ S) :
    minorMatch (.cls S) (d :: ds) = none := by
  simp [minorMatch, h]

theorem stageSearch_all_digits (p : MinorPat) (cs : List Char)
    (h : cs.all Char.isDigit = true) : stageSearch p cs = none := by
  induction cs with
  | nil => rfl
  | cons c cs ih =>
    simp only [List.all_cons, Bool.and_eq_true] at h
    unfold stageSearch tryStage
    rw [dropWhile_all_nil _ _ (by simp [h.1, h.2])]
    simp only []
    rw [ih h.2]
    by_cases he : ((c :: cs).takeWhile Char.isDigit).isEmpty <;> simp [he]

theorem stageSearch_split_hit (p : MinorPat) (ds m : List Char) (mm : List Char)
    (hne : ds ≠ []) (hds : ds.all Char.isDigit = true)
    (hm : minorMatch p m = some mm) :
    stageSearch p (ds ++ '.' :: m) = some (ds, mm) := by
  cases ds with
  | nil => exact absurd rfl hne
  | cons d ds' =>
    unfold stageSearch
    show (match tryStage p ((d :: ds') ++ '.' :: m) with
          | some r => some r
          | none => stageSearch p (ds' ++ '.' :: m)) = _
    unfold tryStage
    rw [takeWhile_all_append _ _ _ _ hds (by decide),
      dropWhile_all_append _ _ _ _ hds (by decide)]
    simp [hm]

theorem stageSearch_split_miss (p : MinorPat) (ds m : List Char)
    (hds : ds.all Char.isDigit = true) (hmall : m.all Char.isDigit = true)
    (hm : minorMatch p m = none) :
    stageSearch p (ds ++ '.' :: m) = none := by
  induction ds with
  | nil =>
    have h1 := takeWhile_all_append Char.isDigit [] '.' m rfl (by decide)
    have h2 := dropWhile_all_append Char.isDigit [] '.' m rfl (by decide)
    simp only [List.nil_append] at h1 h2 ⊢
    unfold stageSearch tryStage
    simp only [h1, h2]
    simp [hm, stageSearch_all_digits p m hmall]
  | cons d ds' ih =>
    simp only [List.all_cons, Bool.and_eq_true] at hds
    unfold stageSearch
    show (match tryStage p ((d :: ds') ++ '.' :: m) with
          | some r => some r
          | none => stageSearch p (ds' ++ '.' :: m)) = _
    unfold tryStage
    rw [takeWhile_all_append _ _ _ _ (by simp [hds.1, hds.2]) (by decide),
      dropWhile_all_append _ _ _ _ (by simp [hds.1, hds.2]) (by decide)]
    simp [hm, ih hds.2]

theorem strAppend_assoc (a b c : String) : a ++ b ++ c = a ++ (b ++ c) := by
  obtain ⟨x⟩ := a
  obtain ⟨y⟩ := b
  obtain ⟨z⟩ := c
  show String.mk (x ++ y ++ z) = String.mk (x ++ (y ++ z))
  rw [List.append_assoc]

theorem formatTenths_hundred (k : Nat) : formatTenths (k * 100) = natStr k ++ ".0" := by
  unfold formatTenths
  rw [Nat.mul_div_cancel k (by norm_num : (0:Nat) < 100),
    show k * 100 / 10 % 10 = 0 by omega, strAppend_assoc]
  congr 1

theorem formatTenths_tenths (k r : Nat) (hr : r < 10) :
    formatTenths (k * 100 + r * 10) = natStr k ++ "." ++ String.mk [digitChar r] := by
  unfold formatTenths
  rw [show (k * 100 + r * 10) / 100 = k by omega,
    show (k * 100 + r * 10) / 10 % 10 = r by omega]

theorem toList_version (a : String) (m : List Char) :
    (a ++ "." ++ String.mk m).toList = a.toList ++ '.' :: m := by
  rw [toList_append, toList_append, List.append_assoc]
  rfl

theorem all_digits_cons {d : Char} {ds : List Char} (hd : d.isDigit = true)
    (h : ds.all Char.isDigit = true) : (d :: ds).all Char.isDigit = true := by
  simp [hd, h]

/-- Evaluation of the stage loop on a version string whose minor starts
with `80` (the pre-alpha stage). -/
theorem getTrain_prealpha (maj : Nat) (ds : List Char) (_h : ds.all Char.isDigit = true) :
    get_train_major_minor (natStr maj ++ "." ++ String.mk ('8' :: '0' :: ds)) =
      some (natStr (maj + 1) ++ ".0") := by
  unfold get_train_major_minor
  rw [toList_version]
  have s1 := stageSearch_split_hit (.two '8' '0') (natStr maj).toList ('8' :: '0' :: ds)
    ['8', '0'] (natStr_ne_nil maj) (natStr_all_digits maj) (minorMatch_two_hit _ _ _)
  simp only [VERSIONS, goStages, s1, group0Hundredths]
  rw [parseNat_natStr, show digitVal '8' = 8 from by decide,
    show digitVal '0' = 0 from by decide,
    show maj * 100 + (8 * 10 + 0) + 20 = (maj + 1) * 100 by ring, formatTenths_hundred]

/-- Minor starting with `90` (alpha). -/
theorem getTrain_alpha (maj : Nat) (ds : List Char) (h : ds.all Char.isDigit = true) :
    get_train_major_minor (natStr maj ++ "." ++ String.mk ('9' :: '0' :: ds)) =
      some (natStr (maj + 1) ++ ".0") := by
  unfold get_train_major_minor
  rw [toList_version]
  have hall : ('9' :: '0' :: ds).all Char.isDigit = true :=
    all_digits_cons (by decide) (all_digits_cons (by decide) h)
  have s0 := stageSearch_split_miss (.two '8' '0') (natStr maj).toList ('9' :: '0' :: ds)
    (natStr_all_digits maj) hall (minorMatch_two_ne1 _ _ _ _ (by decide))
  have s1 := stageSearch_split_hit (.two '9' '0') (natStr maj).toList ('9' :: '0' :: ds)
    ['9', '0'] (natStr_ne_nil maj) (natStr_all_digits maj) (minorMatch_two_hit _ _ _)
  simp only [VERSIONS, goStages, s0, s1, group0Hundredths]
  rw [parseNat_natStr, show digitVal '9' = 9 from by decide,
    show digitVal '0' = 0 from by decide,
    show maj * 100 + (9 * 10 + 0) + 10 = (maj + 1) * 100 by ring, formatTenths_hundred]

/-- Minor starting with `95` (beta). -/
theorem getTrain_beta (maj : Nat) (ds : List Char) (h : ds.all Char.isDigit = true) :
    get_train_major_minor (natStr maj ++ "." ++ String.mk ('9' :: '5' :: ds)) =
      some (natStr (maj + 1) ++ ".0") := by
  unfold get_train_major_minor
  rw [toList_version]
  have hall : ('9' :: '5' :: ds).all Char.isDigit = true :=
    all_digits_cons (by decide) (all_digits_cons (by decide) h)
  have s0 := stageSearch_split_miss (.two '8' '0') (natStr maj).toList ('9' :: '5' :: ds)
    (natStr_all_digits maj) hall (minorMatch_two_ne1 _ _ _ _ (by decide))
  have s1 := stageSearch_split_miss (.two '9' '0') (natStr maj).toList ('9' :: '5' :: ds)
    (natStr_all_digits maj) hall (minorMatch_two_ne2 _ _ _ _ _ (by decide))
  have s2 := stageSearch_split_hit (.two '9' '5') (natStr maj).toList ('9' :: '5' :: ds)
    ['9', '5'] (natStr_ne_nil maj) (natStr_all_digits maj) (minorMatch_two_hit _ _ _)
  simp only [VERSIONS, goStages, s0, s1, s2, group0Hundredths]
  rw [parseNat_natStr, show digitVal '9' = 9 from by decide,
    show digitVal '5' = 5 from by decide,
    show maj * 100 + (9 * 10 + 5) + 5 = (maj + 1) * 100 by ring, formatTenths_hundred]

/-- Minor starting with `97` (rc). -/
theorem getTrain_rc (maj : Nat) (ds : List Char) (h : ds.all Char.isDigit = true) :
    get_train_major_minor (natStr maj ++ "." ++ String.mk ('9' :: '7' :: ds)) =
      some (natStr (maj + 1) ++ ".0") := by
  unfold get_train_major_minor
  rw [toList_version]
  have hall : ('9' :: '7' :: ds).all Char.isDigit = true :=
    all_digits_cons (by decide) (all_digits_cons (by decide) h)
  have s0 := stageSearch_split_miss (.two '8' '0') (natStr maj).toList ('9' :: '7' :: ds)
    (natStr_all_digits maj) hall (minorMatch_two_ne1 _ _ _ _ (by decide))
  have s1 := stageSearch_split_miss (.two '9' '0') (natStr maj).toList ('9' :: '7' :: ds)
    (natStr_all_digits maj) hall (minorMatch_two_ne2 _ _ _ _ _ (by decide))
  have s2 := stageSearch_split_miss (.two '9' '5') (natStr maj).toList ('9' :: '7' :: ds)
    (natStr_all_digits maj) hall (minorMatch_two_ne2 _ _ _ _ _ (by decide))
  have s3 := stageSearch_split_hit (.two '9' '7') (natStr maj).toList ('9' :: '7' :: ds)
    ['9', '7'] (natStr_ne_nil maj) (natStr_all_digits maj) (minorMatch_two_hit _ _ _)
  simp only [VERSIONS, goStages, s0, s1, s2, s3, group0Hundredths]
  rw [parseNat_natStr, show digitVal '9' = 9 from by decide,
    show digitVal '7' = 7 from by decide,
    show maj * 100 + (9 * 10 + 7) + 3 = (maj + 1) * 100 by ring, formatTenths_hundred]

/-- Minor starting with an odd digit of `[1,3,5,7]` (unstable): folded
forward to the next even minor. -/
theorem getTrain_unstable (maj : Nat) (d : Char) (hd : d ∈ ['1', '3', '5', '7'])
    (ds : List Char) (h : ds.all Char.isDigit = true) :
    get_train_major_minor (natStr maj ++ "." ++ String.mk (d :: ds)) =
      some (natStr maj ++ "." ++ String.mk [digitChar (digitVal d + 1)]) := by
  unfold get_train_major_minor
  rw [toList_version]
  have hdd : d.isDigit = true := by fin_cases hd <;> decide
  have hall : (d :: ds).all Char.isDigit = true := all_digits_cons hdd h
  have h8 : d ≠ '8' := by fin_cases hd <;> decide
  have h9 : d ≠ '9' := by fin_cases hd <;> decide
  have hin : d ∈ ['1', ',', '3', '5', '7'] := by
    fin_cases hd <;> decide
  have s0 := stageSearch_split_miss (.two '8' '0') (natStr maj).toList (d :: ds)
    (natStr_all_digits maj) hall (minorMatch_two_ne1 _ _ _ _ h8)
  have s1 := stageSearch_split_miss (.two '9' '0') (natStr maj).toList (d :: ds)
    (natStr_all_digits maj) hall (minorMatch_two_ne1 _ _ _ _ h9)
  have s2 := stageSearch_split_miss (.two '9' '5') (natStr maj).toList (d :: ds)
    (natStr_all_digits maj) hall (minorMatch_two_ne1 _ _ _ _ h9)
  have s3 := stageSearch_split_miss (.two '9' '7') (natStr maj).toList (d :: ds)
    (natStr_all_digits maj) hall (minorMatch_two_ne1 _ _ _ _ h9)
  have s4 := stageSearch_split_hit (.cls ['1', ',', '3', '5', '7']) (natStr maj).toList
    (d :: ds) [d] (natStr_ne_nil maj) (natStr_all_digits maj) (minorMatch_cls_hit _ _ _ hin)
  simp only [VERSIONS, goStages, s0, s1, s2, s3, s4, group0Hundredths]
  have hv : digitVal d + 1 < 10 := by fin_cases hd <;> decide
  rw [parseNat_natStr, show maj * 100 + digitVal d * 10 + 10 = maj * 100 + (digitVal d + 1) * 10 by ring,
    formatTenths_tenths maj (digitVal d + 1) hv]

/-- Minor starting with an even digit of `[0,2,4,6]` (stable): unchanged. -/
theorem getTrain_stable (maj : Nat) (d : Char) (hd : d ∈ ['0', '2', '4', '6'])
    (ds : List Char) (h : ds.all Char.isDigit = true) :
    get_train_major_minor (natStr maj ++ "." ++ String.mk (d :: ds)) =
      some (natStr maj ++ "." ++ String.mk [d]) := by
  unfold get_train_major_minor
  rw [toList_version]
  have hdd : d.isDigit = true := by fin_cases hd <;> decide
  have hall : (d :: ds).all Char.isDigit = true := all_digits_cons hdd h
  have h8 : d ≠ '8' := by fin_cases hd <;> decide
  have h9 : d ≠ '9' := by fin_cases hd <;> decide
  have hn5 : d ∉ ['1', ',', '3', '5', '7'] := by
    fin_cases hd <;> decide
  have hin : d ∈ ['0', ',', '2', '4', '6'] := by
    fin_cases hd <;> decide
  have s0 := stageSearch_split_miss (.two '8' '0') (natStr maj).toList (d :: ds)
    (natStr_all_digits maj) hall (minorMatch_two_ne1 _ _ _ _ h8)
  have s1 := stageSearch_split_miss (.two '9' '0') (natStr maj).toList (d :: ds)
    (natStr_all_digits maj) hall (minorMatch_two_ne1 _ _ _ _ h9)
  have s2 := stageSearch_split_miss (.two '9' '5') (natStr maj).toList (d :: ds)
    (natStr_all_digits maj) hall (minorMatch_two_ne1 _ _ _ _ h9)
  have s3 := stageSearch_split_miss (.two '9' '7') (natStr maj).toList (d :: ds)
    (natStr_all_digits maj) hall (minorMatch_two_ne1 _ _ _ _ h9)
  have s4 := stageSearch_split_miss (.cls ['1', ',', '3', '5', '7']) (natStr maj).toList
    (d :: ds) (natStr_all_digits maj) hall (minorMatch_cls_miss _ _ _ hn5)
  have s5 := stageSearch_split_hit (.cls ['0', ',', '2', '4', '6']) (natStr maj).toList
    (d :: ds) [d] (natStr_ne_nil maj) (natStr_all_digits maj) (minorMatch_cls_hit _ _ _ hin)
  simp only [VERSIONS, goStages, s0, s1, s2, s3, s4, s5, group0Hundredths]
  have hv : digitVal d < 10 := by fin_cases hd <;> decide
  have hch : digitChar (digitVal d) = d := by
    fin_cases hd <;> decide
  rw [parseNat_natStr, Nat.add_zero, formatTenths_tenths maj (digitVal d) hv, hch]

/-! ### Supporting lemmas on the pruner's selection fold -/

theorem mem_insertBy {α : Type} (le : α → α → Bool) (x a : α) (l : List α) :
    a ∈ insertBy le x l ↔ a = x ∨ a ∈ l := by
  induction l with
  | nil => simp [insertBy]
  | cons y ys ih =>
    unfold insertBy
    by_cases h : le y x = true
    · simp only [h, if_true, List.mem_cons, ih]
      tauto
    · rw [if_neg h]
      simp only [List.mem_cons]

theorem mem_sortBy {α : Type} (le : α → α → Bool) (a : α) (l : List α) :
    a ∈ sortBy le l ↔ a ∈ l := by
  have key : ∀ acc : List α, a ∈ l.foldl (fun s x => insertBy le x s) acc ↔ a ∈ acc ∨ a ∈ l := by
    induction l with
    | nil => simp
    | cons x xs ih =>
      intro acc
      simp only [List.foldl_cons, ih, mem_insertBy, List.mem_cons]
      tauto
  unfold sortBy
  rw [key []]
  simp

theorem purgeLoop_purge_aged (now : Int) (ret : Nat) (gs : String → Nat) (build : String)
    (files : List PFileRec) :
    ∀ (weeks : List String) (kept purge : List PDetails) (det : PDetails),
      det ∈ (purgeLoop now ret gs build files weeks kept purge).2.2 →
      det ∈ purge ∨ dateSec det.date < now - (ret : Int) * 86400 := by
  induction files with
  | nil => intro weeks kept purge det h; exact Or.inl h
  | cons rf rest ih =>
    intro weeks kept purge det h
    simp only [purgeLoop] at h
    split_ifs at h with h1 h2 h3
    · rcases ih _ _ _ _ h with hin | hlt
      · rcases List.mem_append.mp hin with hin | hin
        · exact Or.inl hin
        · right
          simp only [List.mem_singleton] at hin
          subst hin
          exact h2
      · exact Or.inr hlt
    · rcases ih _ _ _ _ h with hin | hlt
      · exact Or.inl hin
      · exact Or.inr hlt
    · exact ih _ _ _ _ h
    · exact ih _ _ _ _ h

theorem purgeLoop_weeks_nodup (now : Int) (ret : Nat) (gs : String → Nat) (build : String)
    (files : List PFileRec) :
    ∀ (weeks : List String) (kept purge : List PDetails), weeks.Nodup →
      ((purgeLoop now ret gs build files weeks kept purge).1).Nodup := by
  induction files with
  | nil => intro weeks kept purge h; exact h
  | cons rf rest ih =>
    intro weeks kept purge h
    simp only [purgeLoop]
    split_ifs with h1 h2 h3
    · exact ih _ _ _ h
    · refine ih _ _ _ ?_
      simp only [List.nodup_append, h, List.nodup_cons, List.not_mem_nil, not_false_iff,
        List.nodup_nil, true_and, and_true]
      intro a ha hak
      simp only [List.mem_singleton] at hak
      subst hak
      exact h3 ha
    · exact ih _ _ _ h
    · exact ih _ _ _ h

theorem purgeLoop_acc_mono (now : Int) (ret : Nat) (gs : String → Nat) (build : String)
    (files : List PFileRec) :
    ∀ (weeks : List String) (kept purge : List PDetails),
      (∀ d ∈ kept, d ∈ (purgeLoop now ret gs build files weeks kept purge).2.1) ∧
      (∀ d ∈ purge, d ∈ (purgeLoop now ret gs build files weeks kept purge).2.2) := by
  induction files with
  | nil => intro weeks kept purge; exact ⟨fun d h => h, fun d h => h⟩
  | cons rf rest ih =>
    intro weeks kept purge
    simp only [purgeLoop]
    split_ifs with h1 h2 h3
    · exact ⟨(ih _ _ _).1, fun d h => (ih _ _ _).2 d (List.mem_append_left _ h)⟩
    · exact ⟨fun d h => (ih _ _ _).1 d (List.mem_append_left _ h), (ih _ _ _).2⟩
    · exact ih _ _ _
    · exact ih _ _ _

theorem purgeLoop_step (now : Int) (ret : Nat) (gs : String → Nat) (build : String)
    (rf : PFileRec) (rest : List PFileRec) (weeks : List String) (kept purge : List PDetails)
    (hm : memRecP build rf = true)
    (ha : dateSec rf.date < now - (ret : Int) * 86400) :
    purgeLoop now ret gs build (rf :: rest) weeks kept purge =
      if bucketKey build rf ∈ weeks then
        purgeLoop now ret gs build rest weeks kept (purge ++ [mkPDetails gs rf])
      else
        purgeLoop now ret gs build rest (weeks ++ [bucketKey build rf])
          (kept ++ [mkPDetails gs rf]) purge := by
  simp only [purgeLoop, hm, if_true, ha, decide_eq_true ha]
  rfl

theorem purgeLoop_complete (now : Int) (ret : Nat) (gs : String → Nat) (build : String)
    (files : List PFileRec) :
    ∀ (weeks : List String) (kept purge : List PDetails) (rf : PFileRec),
      rf ∈ files → memRecP build rf = true →
      dateSec rf.date < now - (ret : Int) * 86400 →
      mkPDetails gs rf ∈ (purgeLoop now ret gs build files weeks kept purge).2.1 ∨
        mkPDetails gs rf ∈ (purgeLoop now ret gs build files weeks kept purge).2.2 := by
  induction files with
  | nil => intro _ _ _ _ h; cases h
  | cons g rest ih =>
    intro weeks kept purge rf hmem hm ha
    rcases List.mem_cons.mp hmem with rfl | hmem'
    · rw [purgeLoop_step now ret gs build rf rest weeks kept purge hm ha]
      by_cases hk : bucketKey build rf ∈ weeks
      · rw [if_pos hk]
        right
        exact (purgeLoop_acc_mono now ret gs build rest _ _ _).2 _
          (List.mem_append_right _ (List.mem_singleton.mpr rfl))
      · rw [if_neg hk]
        left
        exact (purgeLoop_acc_mono now ret gs build rest _ _ _).1 _
          (List.mem_append_right _ (List.mem_singleton.mpr rfl))
    · simp only [purgeLoop]
      split_ifs with h1 h2 h3
      · exact ih _ _ _ _ hmem' hm ha
      · exact ih _ _ _ _ hmem' hm ha
      · exact ih _ _ _ _ hmem' hm ha
      · exact ih _ _ _ _ hmem' hm ha

theorem pruneBuilds_purge_aged (now : Int) (ret : Nat) (gs : String → Nat)
    (files : List PFileRec) :
    ∀ (builds : List String) (kept purge : List PDetails) (det : PDetails),
      det ∈ (pruneBuilds now ret gs files builds kept purge).2 →
      det ∈ purge ∨ dateSec det.date < now - (ret : Int) * 86400 := by
  intro builds
  induction builds with
  | nil => intro kept purge det h; exact Or.inl h
  | cons b bs ih =>
    intro kept purge det h
    simp only [pruneBuilds] at h
    rcases ih _ _ _ h with hin | hlt
    · exact purgeLoop_purge_aged now ret gs b files _ _ _ _ hin
    · exact Or.inr hlt

/-- C3 (amended): the retention buckets are keyed by
`(uboot-variant-if-present-else-device, isoYear, isoWeek)` — not by the
device alone — within each build's pass: the selection step keeps a
past-cutoff file exactly when its bucket key is new for the pass and
purges it when the bucket was already kept; bucket keys of one pass are
pairwise distinct (at most one kept file per bucket per pass); every
purge candidate is past the retention cutoff (a file within the window is
never purged); and every matching past-cutoff file ends in the kept or
the purge list. -/
theorem C3_bucket_selection :
    (∀ (now : Int) (ret : Nat) (gs : String → Nat) (build : String) (rf : PFileRec)
        (rest : List PFileRec) (weeks : List String) (kept purge : List PDetails),
      memRecP build rf = true →
      dateSec rf.date < now - (ret : Int) * 86400 →
      purgeLoop now ret gs build (rf :: rest) weeks kept purge =
        if bucketKey build rf ∈ weeks then
          purgeLoop now ret gs build rest weeks kept (purge ++ [mkPDetails gs rf])
        else
          purgeLoop now ret gs build rest (weeks ++ [bucketKey build rf])
            (kept ++ [mkPDetails gs rf]) purge) ∧
    (∀ (now : Int) (ret : Nat) (gs : String → Nat) (builds : List String)
        (files : List PFileRec) (det : PDetails),
      det ∈ (pruneSelect now ret gs builds files).2 →
      dateSec det.date < now - (ret : Int) * 86400) ∧
    (∀ (now : Int) (ret : Nat) (gs : String → Nat) (build : String) (files : List PFileRec),
      ((purgeLoop now ret gs build files [] [] []).1).Nodup) ∧
    (∀ (now : Int) (ret : Nat) (gs : String → Nat) (build : String) (files : List PFileRec)
        (rf : PFileRec),
      rf ∈ files → memRecP build rf = true →
      dateSec rf.date < now - (ret : Int) * 86400 →
      mkPDetails gs rf ∈ (purgeLoop now ret gs build files [] [] []).2.1 ∨
        mkPDetails gs rf ∈ (purgeLoop now ret gs build files [] [] []).2.2) := by
  refine ⟨purgeLoop_step, ?_, ?_, ?_⟩
  · intro now ret gs builds files det h
    unfold pruneSelect at h
    rw [mem_sortBy] at h
    rcases pruneBuilds_purge_aged now ret gs files builds [] [] det h with hin | hlt
    · cases hin
    · exact hlt
  · intro now ret gs build files
    exact purgeLoop_weeks_nodup now ret gs build files [] [] [] List.nodup_nil
  · intro now ret gs build files rf hmem hm ha
    exact purgeLoop_complete now ret gs build files [] [] [] rf hmem hm ha

/-- Witness for C3: the later same-bucket variant file of the concrete
scenario lands in the kept or purge list. -/
theorem C3_witness :
    mkPDetails (fun _ => 7) c3rec2 ∈
        (purgeLoop 1700000000 30 (fun _ => 7) "RK3328.arm" [c3rec1, c3rec2] [] [] []).2.1 ∨
      mkPDetails (fun _ => 7) c3rec2 ∈
        (purgeLoop 1700000000 30 (fun _ => 7) "RK3328.arm" [c3rec1, c3rec2] [] [] []).2.2 :=
  C3_bucket_selection.2.2.2 1700000000 30 (fun _ => 7) "RK3328.arm" [c3rec1, c3rec2] c3rec2
    (by decide) (by decide) (by decide)

/-- C4 (counterexample): `8` is an even single-digit minor, but the
stable stage's class is `[0,2,4,6]` (releases.py:48), which omits it: the
version `9.8` resolves to `None`, not to the unchanged `9.8` the claim
asserts. -/
theorem C4_counterexample_even_minor_8 :
    get_train_major_minor "9.8" = none ∧
    get_train_major_minor "9.8" ≠ some "9.8" := by
  refine ⟨by decide, by decide⟩

/-- C4 (amended): the stage table is iterated in the fixed order
pre-alpha, alpha, beta, rc, unstable, stable with minor-digit patterns
`80`, `90`, `95`, `97`, `[1,3,5,7]`, `[0,2,4,6]` and adjustments
+0.20, +0.10, +0.05, +0.03, +0.10, +0.00; the first matching stage wins.
Consequently a raw version with minor starting `80`/`90`/`95`/`97`
resolves to the next major's `.0` train, an odd single-digit minor of
`{1,3,5,7}` is folded to the next even minor, and a version with an even
single-digit minor of `{0,2,4,6}` — but not `8`, which no stage matches —
resolves to the input major.minor unchanged (`9.8` and `9.9` resolve to
`None`). -/
theorem C4_stage_table_resolution :
    (∀ (maj : Nat) (ds : List Char), ds.all Char.isDigit = true →
      get_train_major_minor (natStr maj ++ "." ++ String.mk ('8' :: '0' :: ds)) =
        some (natStr (maj + 1) ++ ".0")) ∧
    (∀ (maj : Nat) (ds : List Char), ds.all Char.isDigit = true →
      get_train_major_minor (natStr maj ++ "." ++ String.mk ('9' :: '0' :: ds)) =
        some (natStr (maj + 1) ++ ".0")) ∧
    (∀ (maj : Nat) (ds : List Char), ds.all Char.isDigit = true →
      get_train_major_minor (natStr maj ++ "." ++ String.mk ('9' :: '5' :: ds)) =
        some (natStr (maj + 1) ++ ".0")) ∧
    (∀ (maj : Nat) (ds : List Char), ds.all Char.isDigit = true →
      get_train_major_minor (natStr maj ++ "." ++ String.mk ('9' :: '7' :: ds)) =
        some (natStr (maj + 1) ++ ".0")) ∧
    (∀ (maj : Nat) (d : Char), d ∈ ['1', '3', '5', '7'] →
      ∀ ds : List Char, ds.all Char.isDigit = true →
      get_train_major_minor (natStr maj ++ "." ++ String.mk (d :: ds)) =
        some (natStr maj ++ "." ++ String.mk [digitChar (digitVal d + 1)])) ∧
    (∀ (maj : Nat) (d : Char), d ∈ ['0', '2', '4', '6'] →
      ∀ ds : List Char, ds.all Char.isDigit = true →
      get_train_major_minor (natStr maj ++ "." ++ String.mk (d :: ds)) =
        some (natStr maj ++ "." ++ String.mk [d])) ∧
    get_train_major_minor "9.8" = none ∧
    get_train_major_minor "9.9" = none :=
  ⟨getTrain_prealpha, getTrain_alpha, getTrain_beta, getTrain_rc,
   fun maj d hd ds h => getTrain_unstable maj d hd ds h,
   fun maj d hd ds h => getTrain_stable maj d hd ds h,
   by decide, by decide⟩

/-- Witness for C4 at `10.80` → `11.0`, `9.1` → `9.2` and `9.2` → `9.2`. -/
theorem C4_witness :
    (([] : List Char).all Char.isDigit = true ∧
      get_train_major_minor (natStr 10 ++ "." ++ String.mk ['8', '0']) =
        some (natStr 11 ++ ".0")) ∧
    ('1' ∈ ['1', '3', '5', '7'] ∧
      get_train_major_minor (natStr 9 ++ "." ++ String.mk ['1']) =
        some (natStr 9 ++ "." ++ String.mk [digitChar (digitVal '1' + 1)])) ∧
    ('2' ∈ ['0', '2', '4', '6'] ∧
      get_train_major_minor (natStr 9 ++ "." ++ String.mk ['2']) =
        some (natStr 9 ++ "." ++ String.mk ['2'])) :=
  ⟨⟨rfl, C4_stage_table_resolution.1 10 [] rfl⟩,
   ⟨by decide, C4_stage_table_resolution.2.2.2.2.1 9 '1' (by decide) [] rfl⟩,
   ⟨by decide, C4_stage_table_resolution.2.2.2.2.2.1 9 '2' (by decide) [] rfl⟩⟩

/-- C5 (counterexample): the same tarball filename in two subdirectories
yields two ReleaseEntry objects with the same base filename
`LibreELEC-RPi2.arm-11.0.1` in one manifest (the second snapshot-loop
iteration re-processes the second record because only record equality
guards it). -/
theorem C5_counterexample_duplicate_filenames :
    (allEntries c5manifest).map entryBase =
      [some "LibreELEC-RPi2.arm-11.0.1", some "LibreELEC-RPi2.arm-11.0.1"] ∧
    allEntryNames c5manifest =
      ["LibreELEC-RPi2.arm-11.0.1.tar", "LibreELEC-RPi2.arm-11.0.1.tar"] := by
  refine ⟨by decide, by decide⟩

/-- C6: on a digest-cache hit the cached triple is returned verbatim with
no filesystem effect at all (no hash, no sidecar read, no stat), and the
result does not depend on the filesystem oracle — so two calls with the
same key under the same seeded cache return identical results. -/
theorem C6_cache_hit_returns_cached_verbatim
    (oldhash : List (String × DigestRec)) (fs fs' : FsOracle)
    (path train build file : String) (r : DigestRec)
    (h : oldhash.lookup (train ++ ";" ++ build ++ ";" ++ file) = some r) :
    get_details oldhash fs path train build file = (r, []) ∧
    get_details oldhash fs path train build file =
      get_details oldhash fs' path train build file := by
  simp [get_details, h]

/-- Witness for C6 at a concrete cache and two disagreeing filesystem
oracles. -/
theorem C6_witness :
    get_details [("T;B;f", ⟨"s", "1", "ts"⟩)]
        ⟨fun _ => none, fun _ => "x", fun _ => "y", fun _ => "z"⟩ "p" "T" "B" "f" =
      (⟨"s", "1", "ts"⟩, []) ∧
    get_details [("T;B;f", ⟨"s", "1", "ts"⟩)]
        ⟨fun _ => none, fun _ => "x", fun _ => "y", fun _ => "z"⟩ "p" "T" "B" "f" =
      get_details [("T;B;f", ⟨"s", "1", "ts"⟩)]
        ⟨fun _ => some "q", fun _ => "a", fun _ => "b", fun _ => "c"⟩ "p" "T" "B" "f" :=
  C6_cache_hit_returns_cached_verbatim _ _ _ _ _ _ _ _ (by decide)

/-- C7 (counterexample): at the retention boundary `now - mtime = window`
the claim says the nightly is excluded (`now - mtime < window` fails and
no override is set), but the code's strict comparison
`mtime < now - window` (releases.py:253/272) retains it. -/
theorem C7_counterexample_boundary_retained :
    ¬ ((1000000 : Int) - (1000000 - 864000) < 864000) ∧
    processName noArgs (1000000 - 864000) (1000000 - 864000)
        "LibreELEC-RPi2.arm-9.2-nightly-20200101-abcdef1.img.gz" =
      .keep ⟨"LibreELEC", "RPi2.arm", "9.2", "20200101", "abcdef1", ""⟩ := by
  refine ⟨by decide, by decide⟩

/-- C7 (amended): a classified release (non-nightly) artifact is always
retained, and a nightly artifact is retained if and only if
`now - mtime ≤ window` (non-strict, the boundary case being retained by
the code's `mtime < now - window` skip test) or the include-all override
is set; a nightly failing the test is skipped before any grouping. -/
theorem C7_retention_filter :
    (∀ (args : Args) (now window mtime : Int) (f : String) (p : Parsed),
      pyStartsWith f "LibreELEC-" = true →
      pyEndsWith f ".tar" = true →
      pyEndsWith f "-noobs.tar" = false →
      pyContains f "nightly" = true →
      parseFilename true ".tar" f = some p →
      (processName args (now - window) mtime f = .keep p ↔
        (args.all = true ∨ now - mtime ≤ window))) ∧
    (∀ (args : Args) (now window mtime : Int) (f : String) (p : Parsed),
      pyStartsWith f "LibreELEC-" = true →
      pyEndsWith f ".tar" = false →
      pyEndsWith f ".img.gz" = true →
      pyContains f "nightly" = true →
      parseFilename true ".img.gz" f = some p →
      (processName args (now - window) mtime f = .keep p ↔
        (args.all = true ∨ now - mtime ≤ window))) ∧
    (∀ (args : Args) (cutoff mtime : Int) (f : String) (p : Parsed),
      pyStartsWith f "LibreELEC-" = true →
      pyEndsWith f ".tar" = true →
      pyEndsWith f "-noobs.tar" = false →
      pyContains f "nightly" = false →
      parseFilename false ".tar" f = some p →
      processName args cutoff mtime f = .keep p) ∧
    (∀ (args : Args) (cutoff mtime : Int) (f : String) (p : Parsed),
      pyStartsWith f "LibreELEC-" = true →
      pyEndsWith f ".tar" = false →
      pyEndsWith f ".img.gz" = true →
      pyContains f "nightly" = false →
      parseFilename false ".img.gz" f = some p →
      processName args cutoff mtime f = .keep p) := by
  refine ⟨?_, ?_, ?_, ?_⟩
  · intro args now window mtime f p h1 h2 h3 h4 h5
    simp only [processName, h1, h2, h3, h4, h5, Bool.not_false, Bool.and_true, Bool.true_and,
      Bool.false_and, Bool.not_true, Bool.false_eq_true, if_true, if_false]
    by_cases hall : args.all = true
    · simp [hall]
    · replace hall : args.all = false := by revert hall; cases args.all <;> simp
      rw [hall]
      simp only [Bool.not_false, Bool.true_and]
      by_cases hlt : mtime < now - window
      · rw [if_pos (decide_eq_true hlt)]
        constructor
        · intro hc; exact absurd hc (by simp)
        · rintro (hc | hc)
          · exact Bool.noConfusion hc
          · exfalso; omega
      · rw [if_neg (by simp [hlt])]
        constructor
        · intro _; right; omega
        · intro _; rfl
  · intro args now window mtime f p h1 h2 h3 h4 h5
    simp only [processName, h1, h2, h3, h4, h5, Bool.not_false, Bool.and_true, Bool.true_and,
      Bool.false_and, Bool.not_true, Bool.false_eq_true, if_true, if_false]
    by_cases hall : args.all = true
    · simp [hall]
    · replace hall : args.all = false := by revert hall; cases args.all <;> simp
      rw [hall]
      simp only [Bool.not_false, Bool.true_and]
      by_cases hlt : mtime < now - window
      · rw [if_pos (decide_eq_true hlt)]
        constructor
        · intro hc; exact absurd hc (by simp)
        · rintro (hc | hc)
          · exact Bool.noConfusion hc
          · exfalso; omega
      · rw [if_neg (by simp [hlt])]
        constructor
        · intro _; right; omega
        · intro _; rfl
  · intro args cutoff mtime f p h1 h2 h3 h4 h5
    simp [processName, h1, h2, h3, h4, h5]
  · intro args cutoff mtime f p h1 h2 h3 h4 h5
    simp [processName, h1, h2, h3, h4, h5]

/-- Witness for C7: a nightly image at `now - mtime = window - 1` is
retained, and a release tarball is retained at any time. -/
theorem C7_witness :
    (processName noArgs ((1000000 : Int) - 864000) 136001
        "LibreELEC-RPi2.arm-9.2-nightly-20200101-abcdef1.img.gz" =
        .keep ⟨"LibreELEC", "RPi2.arm", "9.2", "20200101", "abcdef1", ""⟩ ↔
      (noArgs.all = true ∨ (1000000 : Int) - 136001 ≤ 864000)) ∧
    processName noArgs 0 0 "LibreELEC-RPi2.arm-11.0.1.tar" =
      .keep ⟨"LibreELEC", "RPi2.arm", "11.0", "", "", ""⟩ :=
  ⟨C7_retention_filter.2.1 noArgs 1000000 864000 136001 _ _
      (by decide) (by decide) (by decide) (by decide) (by decide),
   C7_retention_filter.2.2.1 noArgs 0 0 _ _
      (by decide) (by decide) (by decide) (by decide) (by decide)⟩

/-- C8: a tarball whose same-base image is absent from the unassigned
filename list gets an entry with the `image` key omitted (not an
empty-string placeholder), and symmetrically a plain image without a
same-base tarball gets an entry with no `file` key. -/
theorem C8_missing_counterpart_slot_omitted :
    (∀ (ctx : Ctx) (rf : FileRec) (files : List FileRec) (names : List String),
      pyEndsWith rf.name ".tar" = true →
      (baseOf rf.name ++ ".img.gz") ∉ names →
      (processMatched ctx rf files names).1 = ⟨some (artOf ctx rf), none, none⟩) ∧
    (∀ (ctx : Ctx) (rf : FileRec) (files : List FileRec) (names : List String),
      pyEndsWith rf.name ".tar" = false →
      rf.uboot = "" →
      pyEndsWith rf.name ".img.gz" = true →
      (baseOf rf.name ++ ".tar") ∉ names →
      (processMatched ctx rf files names).1 = ⟨none, some (artOf ctx rf), none⟩) := by
  constructor
  · intro ctx rf files names htar habs
    unfold processMatched
    rw [if_pos htar, if_neg (fun hmem => habs (List.mem_of_mem_erase hmem))]
  · intro ctx rf files names htar hub himg habs
    unfold processMatched
    rw [if_neg (by simp [htar]), if_neg (by simp [hub]), if_pos himg,
      if_neg (fun hmem => habs (List.mem_of_mem_erase hmem))]

/-- Witness for C8 at a lone image and a lone tarball. -/
theorem C8_witness :
    (processMatched ⟨"LibreELEC-11.0", "RPi2.arm", "in", trivDetails⟩
        ⟨"LibreELEC-RPi2.arm-11.0.1.tar", "LibreELEC-11.0", "RPi2.arm", "", "in"⟩
        [⟨"LibreELEC-RPi2.arm-11.0.1.tar", "LibreELEC-11.0", "RPi2.arm", "", "in"⟩]
        ["LibreELEC-RPi2.arm-11.0.1.tar"]).1 =
      ⟨some (artOf ⟨"LibreELEC-11.0", "RPi2.arm", "in", trivDetails⟩
        ⟨"LibreELEC-RPi2.arm-11.0.1.tar", "LibreELEC-11.0", "RPi2.arm", "", "in"⟩),
       none, none⟩ ∧
    (processMatched ⟨"LibreELEC-11.0", "RPi2.arm", "in", trivDetails⟩
        ⟨"LibreELEC-RPi2.arm-11.0.1.img.gz", "LibreELEC-11.0", "RPi2.arm", "", "in"⟩
        [⟨"LibreELEC-RPi2.arm-11.0.1.img.gz", "LibreELEC-11.0", "RPi2.arm", "", "in"⟩]
        ["LibreELEC-RPi2.arm-11.0.1.img.gz"]).1 =
      ⟨none, some (artOf ⟨"LibreELEC-11.0", "RPi2.arm", "in", trivDetails⟩
        ⟨"LibreELEC-RPi2.arm-11.0.1.img.gz", "LibreELEC-11.0", "RPi2.arm", "", "in"⟩),
       none⟩ :=
  ⟨C8_missing_counterpart_slot_omitted.1 _ _ _ _ (by decide) (by decide),
   C8_missing_counterpart_slot_omitted.2 _ _ _ _ (by decide) (by decide) (by decide) (by decide)⟩

/-- C9: without the `--delete` flag the pruner removes nothing: the
deleted list is empty and the set of files on disk is unchanged (it only
prints the purge candidates). -/
theorem C9_no_delete_flag_no_removal
    (args : PArgs) (now : Int) (gs : String → Nat)
    (walk : List (String × List String)) (disk : List String)
    (kept purge : List PDetails) (deleted disk' : List String)
    (hd : args.delete = false)
    (h : pruneRun args now gs walk disk = .ok (kept, purge, deleted, disk')) :
    deleted = [] ∧ disk' = disk := by
  have hfin : ∀ kp, pruneFinish args disk kp = ([], disk) := by
    intro kp
    simp [pruneFinish, hd]
  unfold pruneRun at h
  cases hscan : pruneScanWalk walk ([], []) with
  | error e => rw [hscan] at h; exact absurd h (by simp)
  | ok st =>
    obtain ⟨files, builds⟩ := st
    rw [hscan] at h
    simp only [hfin] at h
    have h2 := Except.ok.inj h
    have hdel := congrArg (fun t => t.2.2.1) h2
    have hdisk := congrArg (fun t => t.2.2.2) h2
    exact ⟨hdel.symm, hdisk.symm⟩

/-- Witness for C9: the variant scenario with `delete` unset leaves the
disk untouched. -/
theorem C9_witness :
    ([] : List String) = [] ∧ (["x", "y"] : List String) = ["x", "y"] :=
  C9_no_delete_flag_no_removal ⟨false, 30, false, false⟩ 1700000000
    (fun _ => 7) c3walk ["x", "y"]
    [⟨"a/LibreELEC-RK3328.arm-9.2-nightly-20200101-abcdef1-box.img.gz", "20200101", 7, "2020-1"⟩,
     ⟨"a/LibreELEC-RK3328.arm-9.2-nightly-20200103-abcdef1-rock64.img.gz", "20200103", 7, "2020-1"⟩]
    [] [] ["x", "y"] rfl (by decide)

end LE
